import Mathlib

/-! Status reconciliation of the etcdadm controller.

A shallow embedding of `controllers/status.go`, `controllers/healthcheck.go` and
`util/collections/machine_filters.go`.

* Go strings are Lean strings, `fmt.Sprintf("https://%s:2379", a)` is concatenation.
* A Go `error` is `Option GoError`, `none` being `nil`.
* Pointers that the code tests against `nil` are `Option`s.
* Calls that leave the process (fleet listing, certificate retrieval, URL parsing, TCP dial,
  HTTP round trip) are fields of a `World`; every call is recorded in a trace of `Event`s.
* A function that can panic returns an `Outcome`, either `returned err` or `panicked v`.
* Logging (`log.Info`, `fmt.Printf`) has no effect on the values studied and is left out.
-/

namespace EtcdadmController

/-! ## Go values -/

/-- Go error values: a base error with its message, or an error annotated with a message. -/
inductive GoError where
  | base (msg : String)
  | wrap (cause : GoError) (msg : String)
  deriving DecidableEq, Repr

/-- The function `errors.Wrap` of `github.com/pkg/errors`: it annotates `err` with a message,
and "if err is nil, Wrap returns nil". -/
def errors.Wrap (err : Option GoError) (message : String) : Option GoError :=
  match err with
  | none => none
  | some e => some (GoError.wrap e message)

/-- How a call ends: it returns its `error` result, or it panics with a value. -/
inductive Outcome where
  | returned (err : Option GoError)
  | panicked (v : GoError)
  deriving DecidableEq, Repr

/-- The conversion `int32(n)` of a Go `int`: the low 32 bits, read as a signed number
(2147483648 is the 31st power of two, 4294967296 the 32nd). The definition goes by the sign of
`n` and reduces the magnitude first, so that it computes on a number that is only partly
known. -/
def int32 (n : Int) : Int :=
  match n with
  | Int.ofNat k =>
    if k % 4294967296 < 2147483648 then Int.ofNat (k % 4294967296)
    else Int.negSucc (4294967295 - k % 4294967296)
  | Int.negSucc k =>
    if k % 4294967296 < 2147483648 then Int.negSucc (k % 4294967296)
    else Int.ofNat (4294967295 - k % 4294967296)

/-- The type `metav1.Time`: an instant, counted from the zero time. -/
structure Time where
  instant : Int
  deriving DecidableEq, Repr

/-- The method `(*metav1.Time).IsZero`: a nil pointer is zero, otherwise the instant decides. -/
def Time.IsZero (t : Option Time) : Bool :=
  match t with
  | none => true
  | some t => t.instant == 0

/-- The method `(*metav1.Time).Before`: false when either pointer is nil. -/
def Time.Before (t u : Option Time) : Bool :=
  match t, u with
  | some t, some u => decide (t.instant < u.instant)
  | _, _ => false

/-- The function `strings.Split(s, sep)` for a one-character separator, on characters:
the pieces between separators, one more piece than there are separators. -/
def splitOnChar (sep : Char) : List Char → List (List Char)
  | [] => [[]]
  | c :: cs =>
    if c = sep then [] :: splitOnChar sep cs
    else
      match splitOnChar sep cs with
      | [] => [[c]]
      | piece :: pieces => (c :: piece) :: pieces

/-- The call `strings.Split(s, ",")`. -/
def strings.Split (s : String) : List String :=
  (splitOnChar ',' s.data).map String.mk

/-! ## Cluster API objects -/

/-- The constant `clusterv1.MachineHostName`. -/
def MachineHostName : String := "Hostname"

/-- The constant `clusterv1.MachineExternalIP`. -/
def MachineExternalIP : String := "ExternalIP"

/-- The constant `clusterv1.MachineInternalIP`. -/
def MachineInternalIP : String := "InternalIP"

/-- The constant `clusterv1.MachineExternalDNS`. -/
def MachineExternalDNS : String := "ExternalDNS"

/-- The constant `clusterv1.MachineInternalDNS`. -/
def MachineInternalDNS : String := "InternalDNS"

/-- The type `clusterv1.MachineAddress`; the address type is a Go string type. -/
structure MachineAddress where
  AddressType : String
  Address : String
  deriving DecidableEq, Repr

/-- The type `metav1.OwnerReference`, with the group of its `APIVersion` already split off. -/
structure OwnerReference where
  Group : String
  Kind : String
  Name : String
  Controller : Option Bool := none
  deriving DecidableEq, Repr

/-- The type `clusterv1.Condition`, reduced to its type and status. -/
structure Condition where
  CondType : String
  Status : String
  deriving DecidableEq, Repr

/-- The type `clusterv1.MachineSpec`, reduced to the field the filters read. -/
structure MachineSpec where
  FailureDomain : Option String := none
  deriving DecidableEq, Repr

/-- The type `clusterv1.MachineStatus`, reduced to the fields the code reads. -/
structure MachineStatus where
  Addresses : List MachineAddress := []
  Conditions : List Condition := []
  deriving DecidableEq, Repr

/-- The type `clusterv1.Machine`; the fields of the embedded `ObjectMeta` are promoted as in Go.
A Go map is an association list read at its first entry for a key. -/
structure Machine where
  Name : String
  Labels : List (String × String) := []
  Annotations : Option (List (String × String)) := none
  OwnerReferences : List OwnerReference := []
  CreationTimestamp : Time := ⟨1⟩
  DeletionTimestamp : Option Time := none
  Spec : MachineSpec := {}
  Status : MachineStatus := {}
  deriving DecidableEq, Repr

/-- The type `clusterv1.Cluster`, reduced to its identity. -/
structure Cluster where
  Name : String
  Namespace : String := "default"
  deriving DecidableEq, Repr

/-- The spec of the etcd cluster resource; `Replicas` is a pointer (`*int32`). -/
structure EtcdClusterSpec where
  Replicas : Option Int
  Version : String := ""
  deriving DecidableEq, Repr

/-- The status of the etcd cluster resource, as `updateStatus` uses it: the fields of
`EtcdadmClusterStatus` and the readiness flag `Ready`. -/
structure EtcdClusterStatus where
  ReadyReplicas : Int := 0
  InitMachineAddress : String := ""
  Initialized : Bool := false
  CreationComplete : Bool := false
  Ready : Bool := false
  Endpoint : String := ""
  Selector : String := ""
  deriving DecidableEq, Repr

/-- The etcd cluster resource (`etcdv1.EtcdCluster`): type meta, object meta, spec and status. -/
structure EtcdCluster where
  Group : String := "etcdcluster.cluster.x-k8s.io"
  Kind : String := "EtcdCluster"
  Name : String
  DeletionTimestamp : Option Time := none
  Spec : EtcdClusterSpec
  Status : EtcdClusterStatus := {}
  deriving DecidableEq, Repr

/-! ## Label selectors (`k8s.io/apimachinery/pkg/labels`) -/

/-- Modelled from the spec: the cluster-identity label key, the constant
`clusterv1.ClusterLabelName`, which is declared outside the source files at hand. -/
def ClusterLabelName : String := "cluster.x-k8s.io/cluster-name"

/-- Modelled from the spec: the role-marker label key, the constant
`clusterv1.MachineEtcdClusterLabelName`, which is declared outside the source files at hand. -/
def MachineEtcdClusterLabelName : String := "cluster.x-k8s.io/etcd-cluster"

/-- The selection operators the selector builder uses. -/
inductive Operator where
  | Equals
  | Exists
  deriving DecidableEq, Repr

/-- The type `labels.Requirement`: a key, an operator and the values compared with. -/
structure Requirement where
  key : String
  operator : Operator
  strValues : List String
  deriving DecidableEq, Repr

/-- The regular expression `([A-Za-z0-9][-A-Za-z0-9_.]*)?[A-Za-z0-9]` on a list of characters:
not empty, alphanumeric at both ends, and only alphanumerics, `-`, `_` and `.` between. -/
def matchesQualifiedName (cs : List Char) : Bool :=
  match cs with
  | [] => false
  | c :: rest =>
    c.isAlphanum && (c :: rest).all (fun x => x.isAlphanum || x == '-' || x == '_' || x == '.')
      && ((c :: rest).getLast?.map Char.isAlphanum).getD false

/-- The function `validation.IsValidLabelValue`: at most 63 characters, and either empty or
of the qualified-name shape. -/
def IsValidLabelValue (value : String) : Bool :=
  decide (value.data.length ≤ 63) && (value.data.isEmpty || matchesQualifiedName value.data)

/-- One label of a DNS-1123 subdomain: `[a-z0-9]([-a-z0-9]*[a-z0-9])?`. -/
def matchesDNS1123Label (cs : List Char) : Bool :=
  match cs with
  | [] => false
  | c :: rest =>
    (c.isLower || c.isDigit) && (c :: rest).all (fun x => x.isLower || x.isDigit || x == '-')
      && (((c :: rest).getLast?).map (fun x => x.isLower || x.isDigit)).getD false

/-- The function `validation.IsDNS1123Subdomain`: at most 253 characters, labels joined by dots. -/
def IsDNS1123Subdomain (cs : List Char) : Bool :=
  decide (cs.length ≤ 253) && (splitOnChar '.' cs).all matchesDNS1123Label

/-- The function `validation.IsQualifiedName`, which validates a label key: an optional
DNS subdomain and a slash, then a name of at most 63 characters. -/
def IsQualifiedName (key : String) : Bool :=
  match splitOnChar '/' key.data with
  | [name] => decide (name.length ≤ 63) && matchesQualifiedName name
  | [pre, name] =>
    !pre.isEmpty && IsDNS1123Subdomain pre && decide (name.length ≤ 63) && matchesQualifiedName name
  | _ => false

/-- The function `labels.NewRequirement` for the two operators in use: the key must be a
qualified name, `Equals` takes exactly one value, `Exists` takes none, and every value must be
a valid label value. -/
def NewRequirement (key : String) (op : Operator) (vals : List String) :
    Except GoError Requirement :=
  if !IsQualifiedName key then Except.error (GoError.base "invalid label key")
  else if (match op with
      | Operator.Equals => vals.length != 1
      | Operator.Exists => vals.length != 0) then
    Except.error (GoError.base "invalid number of values for the operator")
  else if !vals.all IsValidLabelValue then Except.error (GoError.base "invalid label value")
  else Except.ok { key := key, operator := op, strValues := vals }

/-- The method `Requirement.Matches` on a label set. -/
def Requirement.Matches (r : Requirement) (ls : List (String × String)) : Bool :=
  match r.operator with
  | Operator.Equals =>
    match ls.lookup r.key with
    | none => false
    | some v => r.strValues.contains v
  | Operator.Exists => (ls.lookup r.key).isSome

/-- The method `Requirement.String`: `key=value` for `Equals`, the bare key for `Exists`. -/
def Requirement.String (r : Requirement) : String :=
  match r.operator with
  | Operator.Equals => r.key ++ "=" ++ ",".intercalate r.strValues
  | Operator.Exists => r.key

/-- The type `labels.Selector` as built by `NewSelector().Add`: a list of requirements. -/
abbrev Selector := List Requirement

/-- The order `<` of Go strings, on characters: the first difference decides, and a proper
initial part comes first. -/
def stringLess : List Char → List Char → Bool
  | [], [] => false
  | [], _ :: _ => true
  | _ :: _, [] => false
  | a :: as, b :: bs =>
    if a.toNat < b.toNat then true
    else if b.toNat < a.toNat then false
    else stringLess as bs

/-- Insertion of a requirement into a list ordered by key (`ByKey`). -/
def insertByKey (r : Requirement) : List Requirement → List Requirement
  | [] => [r]
  | x :: xs =>
    if stringLess x.key.data r.key.data then x :: insertByKey r xs else r :: x :: xs

/-- The method `Selector.Add`: the requirements are appended and the result is sorted by key. -/
def Selector.Add (s : Selector) (reqs : List Requirement) : Selector :=
  (s ++ reqs).foldr insertByKey []

/-- The method `Selector.Matches`: every requirement must match. -/
def Selector.Matches (s : Selector) (ls : List (String × String)) : Bool :=
  match s with
  | [] => true
  | r :: rest => if !r.Matches ls then false else Selector.Matches rest ls

/-- The method `Selector.String`: the requirements, comma-separated. -/
def Selector.String (s : Selector) : String :=
  ",".intercalate (s.map Requirement.String)

/-- The selector `EtcdPlaneSelectorForCluster(clusterName)`. The helper `must` panics when a
requirement cannot be built: `Except.error v` stands for `panic(v)`. -/
def EtcdPlaneSelectorForCluster (clusterName : String) : Except GoError Selector :=
  match NewRequirement ClusterLabelName Operator.Equals [clusterName] with
  | Except.error err => Except.error err
  | Except.ok r1 =>
    match NewRequirement MachineEtcdClusterLabelName Operator.Exists [] with
    | Except.error err => Except.error err
    | Except.ok r2 => Except.ok (Selector.Add [] [r1, r2])

/-! ## The predicate library (`util/collections/machine_filters.go`) -/

/-- The type `Func`: a filter on a possibly nil machine pointer. -/
abbrev Func := Option Machine → Bool

/-- The filter `And(filters...)`: false at the first filter that fails, else true. -/
def And (filters : List Func) : Func := fun machine =>
  match filters with
  | [] => true
  | f :: rest => if !f machine then false else And rest machine

/-- The filter `Or(filters...)`: true at the first filter that holds, else false. -/
def Or (filters : List Func) : Func := fun machine =>
  match filters with
  | [] => false
  | f :: rest => if f machine then true else Or rest machine

/-- The filter `Not(mf)`. -/
def Not (mf : Func) : Func := fun machine => !mf machine

/-- The function `metav1.GetControllerOf`: the first owner reference flagged as controller. -/
def GetControllerOf (m : Machine) : Option OwnerReference :=
  m.OwnerReferences.find? (fun ref => ref.Controller == some true)

/-- The filter `HasControllerRef`. -/
def HasControllerRef : Func := fun machine =>
  match machine with
  | none => false
  | some m => (GetControllerOf m).isSome

/-- The loop of `InFailureDomains` over the given failure domains. -/
def inFailureDomainsLoop (failureDomains : List (Option String)) (m : Machine) : Bool :=
  match failureDomains with
  | [] => false
  | fd :: rest =>
    match fd with
    | none =>
      if m.Spec.FailureDomain = none then true else inFailureDomainsLoop rest m
    | some d =>
      match m.Spec.FailureDomain with
      | none => inFailureDomainsLoop rest m
      | some md => if d = md then true else inFailureDomainsLoop rest m

/-- The filter `InFailureDomains(failureDomains...)`. -/
def InFailureDomains (failureDomains : List (Option String)) : Func := fun machine =>
  match machine with
  | none => false
  | some m => inFailureDomainsLoop failureDomains m

/-- The function `util.IsOwnedByObject`: some owner reference names the group, kind and name
of the owner. -/
def IsOwnedByObject (m : Machine) (owner : EtcdCluster) : Bool :=
  m.OwnerReferences.any
    (fun ref => ref.Group == owner.Group && ref.Kind == owner.Kind && ref.Name == owner.Name)

/-- The filter `OwnedMachines(owner)`. -/
def OwnedMachines (owner : EtcdCluster) : Func := fun machine =>
  match machine with
  | none => false
  | some m => IsOwnedByObject m owner

/-- The filter `ActiveMachines`. -/
def ActiveMachines : Func := fun machine =>
  match machine with
  | none => false
  | some m => Time.IsZero m.DeletionTimestamp

/-- The filter `HasDeletionTimestamp`. -/
def HasDeletionTimestamp : Func := fun machine =>
  match machine with
  | none => false
  | some m => !Time.IsZero m.DeletionTimestamp

/-- The function `conditions.Get`: the first condition of the given type. -/
def conditions.Get (m : Machine) (t : String) : Option Condition :=
  m.Status.Conditions.find? (fun c => c.CondType == t)

/-- The function `conditions.IsFalse`. -/
def conditions.IsFalse (m : Machine) (t : String) : Bool :=
  match conditions.Get m t with
  | some c => c.Status == "False"
  | none => false

/-- The function `conditions.IsTrue`. -/
def conditions.IsTrue (m : Machine) (t : String) : Bool :=
  match conditions.Get m t with
  | some c => c.Status == "True"
  | none => false

/-- The constant `clusterv1.MachineHealthCheckSuccededCondition`. -/
def MachineHealthCheckSuccededCondition : String := "HealthCheckSucceeded"

/-- The constant `clusterv1.MachineOwnerRemediatedCondition`. -/
def MachineOwnerRemediatedCondition : String := "OwnerRemediated"

/-- The constant `clusterv1.ReadyCondition`. -/
def ReadyCondition : String := "Ready"

/-- The filter `HasUnhealthyCondition`. -/
def HasUnhealthyCondition : Func := fun machine =>
  match machine with
  | none => false
  | some m =>
    conditions.IsFalse m MachineHealthCheckSuccededCondition
      && conditions.IsFalse m MachineOwnerRemediatedCondition

/-- The filter `IsReady()`. -/
def IsReady : Func := fun machine =>
  match machine with
  | none => false
  | some m => conditions.IsTrue m ReadyCondition

/-- The filter `ShouldRolloutAfter(reconciliationTime, rolloutAfter)`. -/
def ShouldRolloutAfter (reconciliationTime rolloutAfter : Option Time) : Func := fun machine =>
  match machine with
  | none => false
  | some m =>
    Time.Before (some m.CreationTimestamp) rolloutAfter
      && Time.Before rolloutAfter reconciliationTime

/-- The filter `HasAnnotationKey(key)`. -/
def HasAnnotationKey (key : String) : Func := fun machine =>
  match machine with
  | none => false
  | some m =>
    match m.Annotations with
    | none => false
    | some annotations => if (annotations.lookup key).isSome then true else false

/-- The filter `EtcdClusterMachines(clusterName)`: the selector is built first, which can
panic (`Except.error`), and the filter returned tests the labels of the machine. -/
def EtcdClusterMachines (clusterName : String) : Except GoError Func :=
  match EtcdPlaneSelectorForCluster clusterName with
  | Except.error v => Except.error v
  | Except.ok selector =>
    Except.ok (fun machine =>
      match machine with
      | none => false
      | some m => Selector.Matches selector m.Labels)

/-! ## The outside world -/

/-- The type `tls.Certificate`: a client certificate with its key. -/
structure Certificate where
  pem : String
  deriving DecidableEq, Repr

/-- The type `http.Client` as the code builds it: the transport carries a TLS configuration
with the pool of root certificates and the client certificates. -/
structure HttpClient where
  RootCAs : List String
  Certificates : List Certificate
  deriving DecidableEq, Repr

/-- The type `http.Request`, reduced to method, URL and the `Close` flag. -/
structure Request where
  Method : String
  URL : String
  Close : Bool := false
  deriving DecidableEq, Repr

/-- The type `http.Response`: the status code, and what reading the body to its end gives. -/
structure Response where
  StatusCode : Int
  Body : Except GoError String

/-- The type `url.URL`, reduced to its host. -/
structure URL where
  Host : String
  deriving DecidableEq, Repr

/-- The collaborators of the reconciler: the fleet inventory, the certificate store, the URL
parser of the standard library, the TCP dialer and the HTTP round trip. Within one pass a
collaborator answers the same call in the same way. -/
structure World where
  listMachines : Cluster → Except GoError (List Machine)
  getCACert : Cluster → Except GoError String
  getClientCerts : Cluster → Except GoError Certificate
  urlParse : String → Except GoError URL
  netDial : String → Except GoError (Option Unit)
  clientDo : HttpClient → Request → Except GoError Response

/-- A call that left the process. -/
inductive Event where
  | listMachines
  | getCACert
  | getClientCerts
  | dial (address : String)
  | roundTrip (req : Request)
  deriving DecidableEq, Repr

/-- The constant `http.StatusOK`. -/
def http.StatusOK : Int := 200

/-- The function `http.NewRequest(method, url, nil)` for a valid method: it fails when the URL
does not parse, and the request it returns does not ask to close the connection. -/
def http.NewRequest (w : World) (method url : String) : Except GoError Request :=
  match w.urlParse url with
  | Except.error err => Except.error err
  | Except.ok _ => Except.ok { Method := method, URL := url, Close := false }

/-- Modelled from the spec: the method `Machines.Filter` of the machine collection, which is
not among the source files: it keeps the machines on which every filter holds. A collection
is the list of its machines in the order in which `range` visits them. -/
def Machines.Filter (s : List Machine) (filters : List Func) : List Machine :=
  s.filter (fun m => And filters (some m))

/-- Modelled from the spec: the function `GetFilteredMachinesForCluster`, which is not among
the source files: it lists the machines of the fleet and keeps those that pass the filters; a
listing failure is returned as the error. -/
def GetFilteredMachinesForCluster (w : World) (cluster : Cluster) (filters : List Func) :
    Except GoError (List Machine) :=
  match w.listMachines cluster with
  | Except.error err => Except.error err
  | Except.ok machines => Except.ok (Machines.Filter machines filters)

/-! ## Status reconciliation (`controllers/status.go`) -/

/-- The loop of `doEtcdHealthCheck` over the endpoints: the error returned and the round
trips made. After a successful `client.Do` the variable `err` is nil, and it is this `err`
that the non-200 branch wraps. -/
def healthCheckLoop (w : World) (client : HttpClient) :
    List String → Option GoError × List Event
  | [] => (none, [])
  | endpoint :: rest =>
    match http.NewRequest w "GET" (endpoint ++ "/health") with
    | Except.error err => (some err, [])
    | Except.ok req =>
      let req := { req with Close := true }
      match w.clientDo client req with
      | Except.error err =>
        (errors.Wrap (some err) "error checking etcd member health", [Event.roundTrip req])
      | Except.ok resp =>
        let err : Option GoError := none
        if resp.StatusCode ≠ http.StatusOK then
          (errors.Wrap err "error member not ready, retry", [Event.roundTrip req])
        else
          let r := healthCheckLoop w client rest
          (r.1, Event.roundTrip req :: r.2)

/-- The method `doEtcdHealthCheck`: the error returned and the calls made. -/
def doEtcdHealthCheck (w : World) (cluster : Cluster) (endpoints : String) :
    Option GoError × List Event :=
  match w.getCACert cluster with
  | Except.error err => (some err, [Event.getCACert])
  | Except.ok caCert =>
    match w.getClientCerts cluster with
    | Except.error err =>
      (errors.Wrap (some err) "Error getting client cert for healthcheck",
        [Event.getCACert, Event.getClientCerts])
    | Except.ok clientCert =>
      let client : HttpClient := { RootCAs := [caCert], Certificates := [clientCert] }
      let r := healthCheckLoop w client (strings.Split endpoints)
      (r.1, Event.getCACert :: Event.getClientCerts :: r.2)

/-- The call `fmt.Sprintf("https://%s:2379", address)`. -/
def endpointURL (address : String) : String := "https://" ++ address ++ ":2379"

/-- The first loop over the addresses of a machine (internal addresses): the endpoint string
and the flag `foundAddress`. -/
def internalAddressLoop : List MachineAddress → String × Bool → String × Bool
  | [], st => st
  | address :: rest, (endpoint, foundAddress) =>
    if address.AddressType = MachineInternalIP ∨ address.AddressType = MachineInternalDNS then
      let endpoint := if endpoint ≠ "" then endpoint ++ "," else endpoint
      internalAddressLoop rest (endpoint ++ endpointURL address.Address, true)
    else internalAddressLoop rest (endpoint, foundAddress)

/-- The second loop over the addresses of a machine (external addresses, when no internal
address was found). -/
def externalAddressLoop (foundAddress : Bool) : List MachineAddress → String → String
  | [], endpoint => endpoint
  | address :: rest, endpoint =>
    if !foundAddress then
      if address.AddressType = MachineExternalIP ∨ address.AddressType = MachineExternalDNS then
        let endpoint := if endpoint ≠ "" then endpoint ++ "," else endpoint
        externalAddressLoop foundAddress rest (endpoint ++ endpointURL address.Address)
      else externalAddressLoop foundAddress rest endpoint
    else externalAddressLoop foundAddress rest endpoint

/-- The loop of `updateStatus` over the owned machines: `none` when a machine without
addresses makes the pass return, else the endpoint string. -/
def endpointLoop : List Machine → String → Option String
  | [], endpoint => some endpoint
  | m :: rest, endpoint =>
    if m.Status.Addresses.length = 0 then none
    else
      let st := internalAddressLoop m.Status.Addresses (endpoint, false)
      endpointLoop rest (externalAddressLoop st.2 m.Status.Addresses st.1)

/-- What a pass of `updateStatus` leaves: the cluster resource as mutated through the pointer,
how the call ended, and the calls made. -/
structure PassResult where
  ec : EtcdCluster
  outcome : Outcome
  trace : List Event
  deriving DecidableEq, Repr

/-- The value of the panic raised by dereferencing a nil pointer. -/
def nilDereference : GoError :=
  GoError.base "runtime error: invalid memory address or nil pointer dereference"

/-- The method `updateStatus`. -/
def updateStatus (w : World) (ec : EtcdCluster) (cluster : Cluster) : PassResult :=
  match EtcdPlaneSelectorForCluster cluster.Name with
  | Except.error v => { ec := ec, outcome := Outcome.panicked v, trace := [] }
  | Except.ok selector =>
    let ec := { ec with Status := { ec.Status with Selector := selector.String } }
    match EtcdClusterMachines cluster.Name with
    | Except.error v => { ec := ec, outcome := Outcome.panicked v, trace := [] }
    | Except.ok etcdClusterMachines =>
      match GetFilteredMachinesForCluster w cluster [etcdClusterMachines] with
      | Except.error err =>
        { ec := ec,
          outcome := Outcome.returned
            (errors.Wrap (some err) "Error filtering machines for etcd cluster"),
          trace := [Event.listMachines] }
      | Except.ok etcdMachines =>
        let ownedMachines := Machines.Filter etcdMachines [OwnedMachines ec]
        match ec.Spec.Replicas with
        | none =>
          { ec := ec, outcome := Outcome.panicked nilDereference, trace := [Event.listMachines] }
        | some desiredReplicas =>
          let ec :=
            { ec with Status := { ec.Status with ReadyReplicas := int32 ownedMachines.length } }
          if !Time.IsZero ec.DeletionTimestamp then
            { ec := ec, outcome := Outcome.returned none, trace := [Event.listMachines] }
          else if ec.Status.ReadyReplicas = desiredReplicas then
            match endpointLoop ownedMachines "" with
            | none =>
              { ec := ec, outcome := Outcome.returned none, trace := [Event.listMachines] }
            | some endpoint =>
              let r := doEtcdHealthCheck w cluster endpoint
              match r.1 with
              | some err =>
                { ec := ec, outcome := Outcome.returned (some err),
                  trace := Event.listMachines :: r.2 }
              | none =>
                { ec := { ec with Status := { ec.Status with Ready := true, Endpoint := endpoint } },
                  outcome := Outcome.returned none,
                  trace := Event.listMachines :: r.2 }
          else { ec := ec, outcome := Outcome.returned none, trace := [Event.listMachines] }

/-! ## JSON decoding (`encoding/json`) into the health response -/

/-- The type `EtcdHealthCheckResponse`. -/
structure EtcdHealthCheckResponse where
  Health : String := ""
  deriving DecidableEq, Repr

/-- The white space of JSON. -/
def isJSONSpace (c : Char) : Bool := c == ' ' || c == '\t' || c == '\r' || c == '\n'

/-- The rest of the input after leading white space. -/
def skipSpace : List Char → List Char
  | [] => []
  | c :: cs => if isJSONSpace c then skipSpace cs else c :: cs

/-- The value of a hexadecimal digit. -/
def hexDigit (c : Char) : Option Nat :=
  if 48 ≤ c.toNat ∧ c.toNat ≤ 57 then some (c.toNat - 48)
  else if 97 ≤ c.toNat ∧ c.toNat ≤ 102 then some (c.toNat - 87)
  else if 65 ≤ c.toNat ∧ c.toNat ≤ 70 then some (c.toNat - 55)
  else none

/-- The function `getu4`: the number written by a leading `\uXXXX`, if there is one. -/
def getu4 (cs : List Char) : Option Nat :=
  match cs with
  | '\\' :: 'u' :: a :: b :: c :: d :: _ =>
    match hexDigit a, hexDigit b, hexDigit c, hexDigit d with
    | some a, some b, some c, some d => some (((a * 16 + b) * 16 + c) * 16 + d)
    | _, _, _, _ => none
  | _ => none

/-- The character a one-letter escape stands for. -/
def simpleEscape (e : Char) : Option Char :=
  if e = '"' then some '"'
  else if e = '\\' then some '\\'
  else if e = '/' then some '/'
  else if e = 'b' then some (Char.ofNat 8)
  else if e = 'f' then some (Char.ofNat 12)
  else if e = 'n' then some '\n'
  else if e = 'r' then some '\r'
  else if e = 't' then some '\t'
  else none

/-- Prepends a character to the decoded part of a scan result. -/
def consDecoded (c : Char) (r : Option (List Char × List Char)) : Option (List Char × List Char) :=
  r.map (fun p => (c :: p.1, p.2))

/-- A JSON string after its opening quote: the decoded characters and the input after the
closing quote. Control characters and unknown escapes are syntax errors; a `\u` escape that
is half of a surrogate pair without its other half decodes to U+FFFD. -/
def scanString : Nat → List Char → Option (List Char × List Char)
  | 0, _ => none
  | fuel + 1, cs =>
    match cs with
    | [] => none
    | '"' :: rest => some ([], rest)
    | '\\' :: e :: rest =>
      if e = 'u' then
        match getu4 cs with
        | none => none
        | some rr =>
          let after := rest.drop 4
          if 0xD800 ≤ rr ∧ rr < 0xE000 then
            match getu4 after with
            | some rr1 =>
              if rr < 0xDC00 ∧ 0xDC00 ≤ rr1 ∧ rr1 < 0xE000 then
                consDecoded (Char.ofNat ((rr - 0xD800) * 1024 + (rr1 - 0xDC00) + 0x10000))
                  (scanString fuel (after.drop 6))
              else consDecoded (Char.ofNat 0xFFFD) (scanString fuel after)
            | none => consDecoded (Char.ofNat 0xFFFD) (scanString fuel after)
          else consDecoded (Char.ofNat rr) (scanString fuel after)
      else
        match simpleEscape e with
        | some c => consDecoded c (scanString fuel rest)
        | none => none
    | c :: rest => if c.toNat < 0x20 then none else consDecoded c (scanString fuel rest)

/-- The rest of the input after leading decimal digits. -/
def skipDigits : List Char → List Char
  | [] => []
  | c :: cs => if c.isDigit then skipDigits cs else c :: cs

/-- The exponent of a JSON number, if any: the rest of the input after it. -/
def scanExponent (cs : List Char) : Option (List Char) :=
  match cs with
  | [] => some []
  | e :: r =>
    if e = 'e' ∨ e = 'E' then
      let r := match r with
        | '+' :: r1 => r1
        | '-' :: r1 => r1
        | _ => r
      match r with
      | d :: r1 => if d.isDigit then some (skipDigits r1) else none
      | [] => none
    else some (e :: r)

/-- The fraction and the exponent of a JSON number, if any. -/
def scanFraction (cs : List Char) : Option (List Char) :=
  match cs with
  | '.' :: r =>
    match r with
    | d :: r1 => if d.isDigit then scanExponent (skipDigits r1) else none
    | [] => none
  | _ => scanExponent cs

/-- A JSON number: the rest of the input after it. -/
def scanNumber (cs : List Char) : Option (List Char) :=
  let cs := match cs with
    | '-' :: r => r
    | _ => cs
  match cs with
  | [] => none
  | c :: r =>
    if c = '0' then scanFraction r
    else if c.isDigit then scanFraction (skipDigits r)
    else none

/-- What kind of value a JSON text is; a string comes with its decoded content. -/
inductive JSONKind where
  | null
  | bool
  | number
  | string (s : String)
  | array
  | object
  deriving DecidableEq, Repr

/-- The nesting depth above which the scanner gives up (`maxNestingDepth`). -/
def maxNestingDepth : Nat := 10000

mutual
/-- A JSON value: its kind and the input after it. -/
def scanValue : Nat → Nat → List Char → Option (JSONKind × List Char)
  | 0, _, _ => none
  | fuel + 1, depth, cs =>
    match cs with
    | '{' :: rest =>
      if depth + 1 > maxNestingDepth then none
      else (scanObject fuel (depth + 1) rest).map (fun r => (JSONKind.object, r.2))
    | '[' :: rest =>
      if depth + 1 > maxNestingDepth then none
      else (scanArray fuel (depth + 1) rest).map (fun r => (JSONKind.array, r))
    | '"' :: rest =>
      (scanString (rest.length + 1) rest).map (fun r => (JSONKind.string (String.mk r.1), r.2))
    | 't' :: 'r' :: 'u' :: 'e' :: rest => some (JSONKind.bool, rest)
    | 'f' :: 'a' :: 'l' :: 's' :: 'e' :: rest => some (JSONKind.bool, rest)
    | 'n' :: 'u' :: 'l' :: 'l' :: rest => some (JSONKind.null, rest)
    | _ => (scanNumber cs).map (fun r => (JSONKind.number, r))
termination_by structural fuel => fuel
/-- A JSON object after its opening brace: its members and the input after it. -/
def scanObject : Nat → Nat → List Char → Option (List (String × JSONKind) × List Char)
  | 0, _, _ => none
  | fuel + 1, depth, cs =>
    match skipSpace cs with
    | '}' :: rest => some ([], rest)
    | cs1 => scanMembers fuel depth cs1
termination_by structural fuel => fuel
/-- The members of a JSON object, at least one, up to the closing brace. -/
def scanMembers : Nat → Nat → List Char → Option (List (String × JSONKind) × List Char)
  | 0, _, _ => none
  | fuel + 1, depth, cs =>
    match cs with
    | '"' :: rest =>
      match scanString (rest.length + 1) rest with
      | none => none
      | some (key, rest1) =>
        match skipSpace rest1 with
        | ':' :: rest2 =>
          match scanValue fuel depth (skipSpace rest2) with
          | none => none
          | some (kind, rest3) =>
            match skipSpace rest3 with
            | ',' :: rest4 =>
              (scanMembers fuel depth (skipSpace rest4)).map
                (fun r => ((String.mk key, kind) :: r.1, r.2))
            | '}' :: rest4 => some ([(String.mk key, kind)], rest4)
            | _ => none
        | _ => none
    | _ => none
termination_by structural fuel => fuel
/-- A JSON array after its opening bracket: the input after it. -/
def scanArray : Nat → Nat → List Char → Option (List Char)
  | 0, _, _ => none
  | fuel + 1, depth, cs =>
    match skipSpace cs with
    | ']' :: rest => some rest
    | cs1 => scanElements fuel depth cs1
termination_by structural fuel => fuel
/-- The elements of a JSON array, at least one, up to the closing bracket. -/
def scanElements : Nat → Nat → List Char → Option (List Char)
  | 0, _, _ => none
  | fuel + 1, depth, cs =>
    match scanValue fuel depth cs with
    | none => none
    | some (_, rest) =>
      match skipSpace rest with
      | ',' :: rest1 => scanElements fuel depth (skipSpace rest1)
      | ']' :: rest1 => some rest1
      | _ => none
termination_by structural fuel => fuel
end

/-- The error of `json.Unmarshal` on a text that is not JSON (`*json.SyntaxError`). -/
def jsonSyntaxError : GoError := GoError.base "json: syntax error"

/-- The error of `json.Unmarshal` on a JSON value of the wrong kind for its target
(`*json.UnmarshalTypeError`). -/
def jsonUnmarshalTypeError : GoError := GoError.base "json: cannot unmarshal value into Go value"

/-- Whether an object key names the field `health`: the exact name, or the name up to the
case of ASCII letters. -/
def matchesHealthField (key : String) : Bool :=
  key.data.map Char.toLower == "health".data

/-- The members of the decoded object stored into the response, in order: a string value of
the field is stored, a null leaves it, any other value is a type error (the first one is kept)
and decoding goes on. -/
def storeMembers (members : List (String × JSONKind)) (obj : EtcdHealthCheckResponse)
    (saved : Option GoError) : EtcdHealthCheckResponse × Option GoError :=
  match members with
  | [] => (obj, saved)
  | (key, kind) :: rest =>
    if matchesHealthField key then
      match kind with
      | JSONKind.string s => storeMembers rest { obj with Health := s } saved
      | JSONKind.null => storeMembers rest obj saved
      | _ =>
        storeMembers rest obj
          (match saved with
            | none => some jsonUnmarshalTypeError
            | some e => some e)
    else storeMembers rest obj saved

/-- The call `json.Unmarshal(data, &obj)` for a health response `obj`: the text is checked to
be one JSON value, then an object is stored field by field, a null leaves `obj` as it is, and
any other value is a type error. The response after the call and the error. A level of
nesting costs the scanner three units of fuel and at least one character, so three units for
each character are enough. -/
def json.Unmarshal (data : String) (obj : EtcdHealthCheckResponse) :
    EtcdHealthCheckResponse × Option GoError :=
  let cs := skipSpace data.data
  match cs with
  | '{' :: rest =>
    match scanObject (3 * cs.length + 3) 1 rest with
    | none => (obj, some jsonSyntaxError)
    | some (members, rest1) =>
      if (skipSpace rest1).isEmpty then storeMembers members obj none
      else (obj, some jsonSyntaxError)
  | _ =>
    match scanValue (3 * cs.length + 3) 0 cs with
    | none => (obj, some jsonSyntaxError)
    | some (kind, rest1) =>
      if (skipSpace rest1).isEmpty then
        match kind with
        | JSONKind.null => (obj, none)
        | _ => (obj, some jsonUnmarshalTypeError)
      else (obj, some jsonSyntaxError)

/-! ## The health-check client (`controllers/healthcheck.go`) -/

/-- The configuration `etcdHealthCheckConfig`: the cached client, a pointer. -/
structure EtcdHealthCheckConfig where
  etcdHttpClient : Option HttpClient := none
  deriving DecidableEq, Repr

/-- The reconciler `EtcdadmClusterReconciler`, reduced to its health-check configuration. -/
structure EtcdadmClusterReconciler where
  etcdHealthCheckConfig : EtcdHealthCheckConfig := {}
  deriving DecidableEq, Repr

/-- What a method of the reconciler leaves: the reconciler as mutated through the pointer,
how the call ended, and the calls made. -/
structure CallResult where
  r : EtcdadmClusterReconciler
  outcome : Outcome
  trace : List Event
  deriving DecidableEq, Repr

/-- The error value `portNotOpenErr`. -/
def portNotOpenErr : GoError := GoError.base "etcd endpoint port is not open"

/-- The error `fmt.Errorf("/health returned %q", health)`, kept as its format and argument. -/
def healthReturnedError (health : String) : GoError :=
  GoError.wrap (GoError.base health) "/health returned %q"

/-- The function `parseEtcdHealthCheckOutput`. -/
def parseEtcdHealthCheckOutput (data : String) : Option GoError :=
  let r := json.Unmarshal data {}
  match r.2 with
  | some err => some err
  | none => if r.1.Health = "true" then none else some (healthReturnedError r.1.Health)

/-- The method `setEtcdHttpClientIfUnset`. -/
def setEtcdHttpClientIfUnset (w : World) (r : EtcdadmClusterReconciler) (cluster : Cluster) :
    CallResult :=
  match r.etcdHealthCheckConfig.etcdHttpClient with
  | some _ => { r := r, outcome := Outcome.returned none, trace := [] }
  | none =>
    match w.getCACert cluster with
    | Except.error err =>
      { r := r, outcome := Outcome.returned (some err), trace := [Event.getCACert] }
    | Except.ok caCert =>
      match w.getClientCerts cluster with
      | Except.error err =>
        { r := r,
          outcome := Outcome.returned
            (errors.Wrap (some err) "Error getting client cert for healthcheck"),
          trace := [Event.getCACert, Event.getClientCerts] }
      | Except.ok clientCert =>
        { r := { r with etcdHealthCheckConfig :=
              { etcdHttpClient := some { RootCAs := [caCert], Certificates := [clientCert] } } },
          outcome := Outcome.returned none,
          trace := [Event.getCACert, Event.getClientCerts] }

/-- The function `isPortOpen`: a TCP dial that returns no error and a connection. -/
def isPortOpen (w : World) (endpoint : String) : Bool :=
  match w.netDial endpoint with
  | Except.error _ => false
  | Except.ok conn => if conn.isSome then true else false

/-- Modelled from the spec: the function `getMemberHealthCheckEndpoint`, which is not among
the source files: the health path of an endpoint is `<endpoint>/health`. -/
def getMemberHealthCheckEndpoint (endpoint : String) : String := endpoint ++ "/health"

/-- The method `performEndpointHealthCheck`. After a successful `ioutil.ReadAll` the variable
`err` is nil, and it is this `err` that the non-200 branch wraps. -/
def performEndpointHealthCheck (w : World) (r : EtcdadmClusterReconciler) (cluster : Cluster)
    (endpoint : String) : CallResult :=
  let s := setEtcdHttpClientIfUnset w r cluster
  match s.outcome with
  | Outcome.panicked v => { r := s.r, outcome := Outcome.panicked v, trace := s.trace }
  | Outcome.returned (some err) =>
    { r := s.r, outcome := Outcome.returned (some err), trace := s.trace }
  | Outcome.returned none =>
    match w.urlParse endpoint with
    | Except.error err =>
      { r := s.r, outcome := Outcome.returned (errors.Wrap (some err) "invalid etcd endpoint url"),
        trace := s.trace }
    | Except.ok u =>
      if !isPortOpen w u.Host then
        { r := s.r, outcome := Outcome.returned (some portNotOpenErr),
          trace := s.trace ++ [Event.dial u.Host] }
      else
        match s.r.etcdHealthCheckConfig.etcdHttpClient with
        | none =>
          { r := s.r, outcome := Outcome.panicked nilDereference,
            trace := s.trace ++ [Event.dial u.Host] }
        | some client =>
          let healthCheckURL := getMemberHealthCheckEndpoint endpoint
          match http.NewRequest w "GET" healthCheckURL with
          | Except.error err =>
            { r := s.r,
              outcome := Outcome.returned
                (errors.Wrap (some err) "error creating healthcheck request"),
              trace := s.trace ++ [Event.dial u.Host] }
          | Except.ok req =>
            match w.clientDo client req with
            | Except.error err =>
              { r := s.r,
                outcome := Outcome.returned
                  (errors.Wrap (some err) "error checking etcd member health"),
                trace := s.trace ++ [Event.dial u.Host, Event.roundTrip req] }
            | Except.ok resp =>
              match resp.Body with
              | Except.error err =>
                { r := s.r, outcome := Outcome.returned (some err),
                  trace := s.trace ++ [Event.dial u.Host, Event.roundTrip req] }
              | Except.ok body =>
                let err : Option GoError := none
                if resp.StatusCode ≠ http.StatusOK then
                  { r := s.r,
                    outcome := Outcome.returned (errors.Wrap err "Etcd member not ready, retry"),
                    trace := s.trace ++ [Event.dial u.Host, Event.roundTrip req] }
                else
                  match parseEtcdHealthCheckOutput body with
                  | some err =>
                    { r := s.r,
                      outcome := Outcome.returned
                        (errors.Wrap (some err)
                          ("etcd member " ++ endpoint ++ " failed healthcheck")),
                      trace := s.trace ++ [Event.dial u.Host, Event.roundTrip req] }
                  | none =>
                    { r := s.r, outcome := Outcome.returned none,
                      trace := s.trace ++ [Event.dial u.Host, Event.roundTrip req] }

/-! ## Reference definitions and sample data -/

/-- The string form of the etcd selector of a cluster name. -/
def selectorString (clusterName : String) : String :=
  ClusterLabelName ++ "=" ++ clusterName ++ "," ++ MachineEtcdClusterLabelName

/-- A machine is an etcd machine of the cluster: its cluster-identity label is the cluster name
and it carries the role-marker label. -/
def isEtcdMachineOf (clusterName : String) (m : Machine) : Bool :=
  (match m.Labels.lookup ClusterLabelName with
    | none => false
    | some v => v == clusterName)
    && (m.Labels.lookup MachineEtcdClusterLabelName).isSome

/-- The owned members of a listing: the etcd machines of the cluster that the cluster
resource owns, in listing order. -/
def ownedMembers (machines : List Machine) (ec : EtcdCluster) (cluster : Cluster) :
    List Machine :=
  (machines.filter (isEtcdMachineOf cluster.Name)).filter (fun m => IsOwnedByObject m ec)

/-- An address is internal: an internal IP or an internal DNS name. -/
def isInternalAddress (a : MachineAddress) : Bool :=
  a.AddressType == MachineInternalIP || a.AddressType == MachineInternalDNS

/-- An address is external: an external IP or an external DNS name. -/
def isExternalAddress (a : MachineAddress) : Bool :=
  a.AddressType == MachineExternalIP || a.AddressType == MachineExternalDNS

/-- The URL list of a member, as the specification words it: one URL for every internal
address in reported order if the member has an internal address, and otherwise one URL for
every external address in reported order. -/
def memberURLs (m : Machine) : List String :=
  if m.Status.Addresses.any isInternalAddress then
    (m.Status.Addresses.filter isInternalAddress).map (fun a => endpointURL a.Address)
  else (m.Status.Addresses.filter isExternalAddress).map (fun a => endpointURL a.Address)

/-- The aggregated endpoint string, as the specification words it: the URL lists of the
members, concatenated in member order and joined by commas. -/
def aggregatedEndpoint (members : List Machine) : String :=
  ",".intercalate (members.map memberURLs).flatten

/-- The cluster resource after the two fields that every completed pass refreshes. -/
def refreshed (ec : EtcdCluster) (selector : String) (readyReplicas : Int) : EtcdCluster :=
  { ec with Status := { ec.Status with Selector := selector, ReadyReplicas := readyReplicas } }

/-- The cluster resource after a pass has marked it ready at an endpoint string. -/
def markedReady (ec : EtcdCluster) (endpoint : String) : EtcdCluster :=
  { ec with Status := { ec.Status with Ready := true, Endpoint := endpoint } }

/-- The request that the batch probe sends to an endpoint. -/
def probeRequest (endpoint : String) : Request :=
  { Method := "GET", URL := endpoint ++ "/health", Close := true }

/-- The client that the batch probe builds from the certificates of the world. -/
def probeClient (caCert : String) (clientCert : Certificate) : HttpClient :=
  { RootCAs := [caCert], Certificates := [clientCert] }

/-- A sample cluster. -/
def sampleCluster : Cluster := { Name := "c1" }

/-- A sample etcd cluster resource with a desired replica count. -/
def sampleEtcd (replicas : Int) : EtcdCluster :=
  { Name := "etcd", Spec := { Replicas := some replicas } }

/-- A sample machine of the sample cluster, owned by the sample resource. -/
def sampleMachine (name : String) (addresses : List MachineAddress) : Machine :=
  { Name := name,
    Labels := [(ClusterLabelName, "c1"), (MachineEtcdClusterLabelName, "")],
    OwnerReferences := [{ Group := "etcdcluster.cluster.x-k8s.io", Kind := "EtcdCluster",
                          Name := "etcd" }],
    Status := { Addresses := addresses } }

/-- A sample world: the listing is given, the certificates are found, every URL parses, every
dial connects, and an HTTP request is answered according to its URL. -/
def sampleWorld (machines : List Machine) (respond : String → Response) : World :=
  { listMachines := fun _ => Except.ok machines,
    getCACert := fun _ => Except.ok "ca",
    getClientCerts := fun _ => Except.ok { pem := "client" },
    urlParse := fun u => Except.ok { Host := u },
    netDial := fun _ => Except.ok (some ()),
    clientDo := fun _ req => Except.ok (respond req.URL) }

/-- Three sample machines with one internal address each. -/
def threeMachines : List Machine :=
  [sampleMachine "m1" [{ AddressType := MachineInternalIP, Address := "10.0.0.1" }],
   sampleMachine "m2" [{ AddressType := MachineInternalIP, Address := "10.0.0.2" }],
   sampleMachine "m3" [{ AddressType := MachineInternalIP, Address := "10.0.0.3" }]]

/-- A healthy answer: status 200 with the body of a healthy member. -/
def healthyResponse : Response :=
  { StatusCode := 200, Body := Except.ok "\x7b\"health\":\"true\"\x7d" }

/-- An answer with the given status and body. -/
def responseOf (status : Int) (body : String) : Response :=
  { StatusCode := status, Body := Except.ok body }

/-- One step of the aggregation: a comma if the string is not empty, then the URL. -/
def appendURL (endpoint url : String) : String :=
  (if endpoint ≠ "" then endpoint ++ "," else endpoint) ++ url

/-- An endpoint answers the batch probe with status 200: the request can be built and the
round trip returns a response whose status code is 200. -/
def answers200 (w : World) (client : HttpClient) (endpoint : String) : Bool :=
  match http.NewRequest w "GET" (endpoint ++ "/health") with
  | Except.error _ => false
  | Except.ok req =>
    match w.clientDo client { req with Close := true } with
    | Except.error _ => false
    | Except.ok resp => resp.StatusCode == http.StatusOK

/-- The second of the three sample endpoints answers 503, the others are healthy. -/
def secondUnavailable (url : String) : Response :=
  if url = "https://10.0.0.2:2379/health" then responseOf 503 "" else healthyResponse

/-- A sample machine that is being deleted. -/
def deletingMachine : Machine :=
  { sampleMachine "m1" [{ AddressType := MachineInternalIP, Address := "10.0.0.1" }] with
    DeletionTimestamp := some ⟨5⟩ }

/-- A sample world in which the round trip to the second of the three sample endpoints fails
in the transport, and every other endpoint is healthy. -/
def secondRefused : World :=
  { sampleWorld threeMachines (fun _ => healthyResponse) with
    clientDo := fun _ req =>
      if req.URL = "https://10.0.0.2:2379/health" then
        Except.error (GoError.base "connection refused")
      else Except.ok healthyResponse }

/-- Two sample machines, the second of which has reported no address yet. -/
def oneWithoutAddress : List Machine :=
  [sampleMachine "m1" [{ AddressType := MachineInternalIP, Address := "10.0.0.1" }],
   sampleMachine "m2" []]

/-- A sample machine with an internal and an external address. -/
def internalAndExternal : Machine :=
  sampleMachine "m1"
    [{ AddressType := MachineInternalIP, Address := "10.0.0.1" },
     { AddressType := MachineExternalIP, Address := "1.2.3.4" }]

/-- A sample machine with an external address only. -/
def externalOnly : Machine :=
  sampleMachine "m2" [{ AddressType := MachineExternalIP, Address := "1.2.3.4" }]

/-- A sample etcd cluster resource that is being deleted and was marked ready before. -/
def deletingEtcd : EtcdCluster :=
  { Name := "etcd", DeletionTimestamp := some ⟨7⟩, Spec := { Replicas := some 3 },
    Status := { Ready := true, Endpoint := "https://10.0.0.9:2379", ReadyReplicas := 1 } }

/-- One sample machine with one internal address. -/
def oneMachine : List Machine :=
  [sampleMachine "m1" [{ AddressType := MachineInternalIP, Address := "10.0.0.1" }]]

/-- The three sample machines, all under deletion. -/
def threeDeleting : List Machine :=
  threeMachines.map (fun m => { m with DeletionTimestamp := some ⟨9⟩ })

/-- A sample machine whose only reported address is a host name. -/
def hostnameOnly : Machine :=
  sampleMachine "m2" [{ AddressType := MachineHostName, Address := "node-2" }]

/-- A sample world in which a request to a URL without scheme and host fails in the
transport, as it does in `net/http`, and every other endpoint is healthy. -/
def schemeCheckingWorld (machines : List Machine) : World :=
  { sampleWorld machines (fun _ => healthyResponse) with
    clientDo := fun _ req =>
      if req.URL = "/health" then Except.error (GoError.base "unsupported protocol scheme")
      else Except.ok healthyResponse }

/-- A sample world in which the certificate store fails as told. -/
def certificateWorld (caFails clientFails : Bool) : World :=
  { sampleWorld [] (fun _ => healthyResponse) with
    getCACert := fun _ =>
      if caFails then Except.error (GoError.base "CA secret not found") else Except.ok "ca",
    getClientCerts := fun _ =>
      if clientFails then Except.error (GoError.base "client secret not found")
      else Except.ok { pem := "client" } }

/-- A sample reconciler with a cached client. -/
def cachedReconciler : EtcdadmClusterReconciler :=
  { etcdHealthCheckConfig :=
      { etcdHttpClient := some { RootCAs := ["old-ca"], Certificates := [{ pem := "old" }] } } }

/-- A sample etcd cluster resource with two desired replicas that was marked ready before. -/
def readyEtcd : EtcdCluster :=
  { Name := "etcd", Spec := { Replicas := some 2 },
    Status := { Ready := true, Endpoint := "https://10.0.0.9:2379", ReadyReplicas := 1 } }

/-- The cluster resource after the selector string has been stored. -/
def selected (ec : EtcdCluster) (selector : String) : EtcdCluster :=
  { ec with Status := { ec.Status with Selector := selector } }

/-- The sample resource under deletion, with its replica count unset. -/
def deletingEtcdUnset : EtcdCluster :=
  { deletingEtcd with Spec := { Replicas := none } }

/-- The sample resource marked ready before, with its replica count unset. -/
def readyEtcdUnset : EtcdCluster :=
  { readyEtcd with Spec := { Replicas := none } }

theorem int32_eq (n : Int) : int32 n = (n + 2147483648) % 4294967296 - 2147483648 := by
  cases n with
  | ofNat k =>
    simp only [int32]
    split_ifs with h
    · simp only [Int.ofNat_eq_coe]; omega
    · simp only [Int.ofNat_eq_coe, Int.negSucc_eq]; omega
  | negSucc k =>
    simp only [int32]
    split_ifs with h
    · simp only [Int.negSucc_eq]; omega
    · simp only [Int.ofNat_eq_coe, Int.negSucc_eq]; omega

theorem int32_of_small (k : Nat) (h : k < 2147483648) : int32 (k : Int) = (k : Int) := by
  rw [int32_eq]
  omega

/-! ## The selector and the owned members -/

theorem isQualifiedName_clusterLabelName : IsQualifiedName ClusterLabelName = true := by decide

theorem isQualifiedName_etcdLabelName : IsQualifiedName MachineEtcdClusterLabelName = true := by
  decide

theorem selector_add_two (name : String) :
    Selector.Add []
      [{ key := ClusterLabelName, operator := Operator.Equals, strValues := [name] },
       { key := MachineEtcdClusterLabelName, operator := Operator.Exists, strValues := [] }] =
      [{ key := ClusterLabelName, operator := Operator.Equals, strValues := [name] },
       { key := MachineEtcdClusterLabelName, operator := Operator.Exists, strValues := [] }] := by
  have h : stringLess MachineEtcdClusterLabelName.data ClusterLabelName.data = false := by decide
  simp [Selector.Add, insertByKey, h]

theorem etcdPlaneSelector_ok (name : String) (hname : IsValidLabelValue name = true) :
    EtcdPlaneSelectorForCluster name =
      Except.ok
        [{ key := ClusterLabelName, operator := Operator.Equals, strValues := [name] },
         { key := MachineEtcdClusterLabelName, operator := Operator.Exists, strValues := [] }] := by
  simp [EtcdPlaneSelectorForCluster, NewRequirement, isQualifiedName_clusterLabelName,
    isQualifiedName_etcdLabelName, hname, selector_add_two]

theorem selector_string_eq (name : String) :
    Selector.String
      [{ key := ClusterLabelName, operator := Operator.Equals, strValues := [name] },
       { key := MachineEtcdClusterLabelName, operator := Operator.Exists, strValues := [] }] =
      selectorString name := by
  simp [Selector.String, Requirement.String, String.intercalate, String.intercalate.go,
    selectorString, String.append_assoc]

theorem selector_matches_eq (name : String) (m : Machine) :
    Selector.Matches
      [{ key := ClusterLabelName, operator := Operator.Equals, strValues := [name] },
       { key := MachineEtcdClusterLabelName, operator := Operator.Exists, strValues := [] }]
      m.Labels = isEtcdMachineOf name m := by
  simp only [Selector.Matches, Requirement.Matches, isEtcdMachineOf]
  cases h1 : List.lookup ClusterLabelName m.Labels <;>
    cases h2 : List.lookup MachineEtcdClusterLabelName m.Labels <;> simp [beq_eq_decide]

theorem etcdClusterMachines_ok (name : String) (hname : IsValidLabelValue name = true) :
    ∃ f : Func, EtcdClusterMachines name = Except.ok f ∧
      ∀ m : Machine, f (some m) = isEtcdMachineOf name m := by
  refine ⟨fun machine =>
      match machine with
      | none => false
      | some m =>
        Selector.Matches
          [{ key := ClusterLabelName, operator := Operator.Equals, strValues := [name] },
           { key := MachineEtcdClusterLabelName, operator := Operator.Exists, strValues := [] }]
          m.Labels, ?_, ?_⟩
  · simp only [EtcdClusterMachines, etcdPlaneSelector_ok name hname]
  · intro m
    exact selector_matches_eq name m

theorem filter_owned_eq (machines : List Machine) (ec : EtcdCluster) (cluster : Cluster)
    (f : Func) (hf : ∀ m : Machine, f (some m) = isEtcdMachineOf cluster.Name m) :
    Machines.Filter (Machines.Filter machines [f]) [OwnedMachines ec] =
      ownedMembers machines ec cluster := by
  have h1 : (fun m : Machine => And [f] (some m)) = isEtcdMachineOf cluster.Name := by
    funext m
    simp [And, hf]
  have h2 : (fun m : Machine => And [OwnedMachines ec] (some m)) =
      fun m => IsOwnedByObject m ec := by
    funext m
    simp [And, OwnedMachines]
  simp only [Machines.Filter, ownedMembers, h1, h2]

/-! ## The shape of a pass -/

theorem updateStatus_of_listing (w : World) (ec : EtcdCluster) (cluster : Cluster)
    (machines : List Machine) (d : Int)
    (hname : IsValidLabelValue cluster.Name = true)
    (hlist : w.listMachines cluster = Except.ok machines)
    (hrep : ec.Spec.Replicas = some d) :
    updateStatus w ec cluster =
      (if !Time.IsZero ec.DeletionTimestamp then
        { ec := refreshed ec (selectorString cluster.Name)
            (int32 (ownedMembers machines ec cluster).length),
          outcome := Outcome.returned none, trace := [Event.listMachines] }
      else if int32 (ownedMembers machines ec cluster).length = d then
        match endpointLoop (ownedMembers machines ec cluster) "" with
        | none =>
          { ec := refreshed ec (selectorString cluster.Name)
              (int32 (ownedMembers machines ec cluster).length),
            outcome := Outcome.returned none, trace := [Event.listMachines] }
        | some endpoint =>
          match (doEtcdHealthCheck w cluster endpoint).1 with
          | some err =>
            { ec := refreshed ec (selectorString cluster.Name)
                (int32 (ownedMembers machines ec cluster).length),
              outcome := Outcome.returned (some err),
              trace := Event.listMachines :: (doEtcdHealthCheck w cluster endpoint).2 }
          | none =>
            { ec := markedReady (refreshed ec (selectorString cluster.Name)
                  (int32 (ownedMembers machines ec cluster).length)) endpoint,
              outcome := Outcome.returned none,
              trace := Event.listMachines :: (doEtcdHealthCheck w cluster endpoint).2 }
      else
        { ec := refreshed ec (selectorString cluster.Name)
            (int32 (ownedMembers machines ec cluster).length),
          outcome := Outcome.returned none, trace := [Event.listMachines] }) := by
  obtain ⟨f, hf, hfm⟩ := etcdClusterMachines_ok cluster.Name hname
  have hown : ∀ st : EtcdClusterStatus,
      Machines.Filter (Machines.Filter machines [f])
        [OwnedMachines { Group := ec.Group, Kind := ec.Kind, Name := ec.Name,
                         DeletionTimestamp := ec.DeletionTimestamp, Spec := ec.Spec,
                         Status := st }] = ownedMembers machines ec cluster := by
    intro st
    rw [filter_owned_eq machines _ cluster f hfm]
    simp [ownedMembers, IsOwnedByObject]
  simp only [updateStatus, etcdPlaneSelector_ok cluster.Name hname, hf,
    GetFilteredMachinesForCluster, hlist, hrep, selector_string_eq]
  simp only [hown]
  cases hE : endpointLoop (ownedMembers machines ec cluster) "" with
  | none => simp only [refreshed]
  | some endpoint =>
    cases hH : (doEtcdHealthCheck w cluster endpoint).1 <;> simp only [refreshed, markedReady]

/-! ## Endpoint aggregation -/

theorem eq_empty_of_length (s : String) (h : s.length = 0) : s = "" := by
  cases s with
  | mk d =>
    have hd : d = [] := List.length_eq_zero.mp h
    subst hd
    rfl

theorem endpointURL_ne_empty (a : String) : endpointURL a ≠ "" := by
  intro h
  have h1 := congrArg String.length h
  have h2 : ":2379".length = 5 := by decide
  have h3 : ("" : String).length = 0 := rfl
  simp only [endpointURL, String.length_append] at h1
  omega

theorem append_ne_empty (s t : String) (ht : t ≠ "") : s ++ t ≠ "" := by
  intro h
  have h1 := congrArg String.length h
  simp only [String.length_append] at h1
  have h2 : t.length = 0 := by
    have : ("" : String).length = 0 := rfl
    omega
  exact ht (eq_empty_of_length t h2)

theorem appendURL_ne_empty (acc u : String) (hu : u ≠ "") : appendURL acc u ≠ "" :=
  append_ne_empty _ u hu

theorem internalAddressLoop_eq (addrs : List MachineAddress) (acc : String) (found : Bool) :
    internalAddressLoop addrs (acc, found) =
      (((addrs.filter isInternalAddress).map (fun a => endpointURL a.Address)).foldl appendURL acc,
        found || addrs.any isInternalAddress) := by
  induction addrs generalizing acc found with
  | nil => simp [internalAddressLoop]
  | cons a rest ih =>
    by_cases h : isInternalAddress a = true
    · have h1 : a.AddressType = MachineInternalIP ∨ a.AddressType = MachineInternalDNS := by
        simpa [isInternalAddress] using h
      simp only [internalAddressLoop, h1, if_true, ih, List.filter_cons, h, List.map_cons,
        List.foldl_cons, List.any_cons, Bool.true_or, Bool.or_true, appendURL]
    · have h1 : ¬ (a.AddressType = MachineInternalIP ∨ a.AddressType = MachineInternalDNS) := by
        simpa [isInternalAddress] using h
      have h2 : isInternalAddress a = false := by simpa using h
      simp only [internalAddressLoop, h1, if_false, ih, List.filter_cons, h2, List.any_cons,
        Bool.false_or]
      simp

theorem externalAddressLoop_found (addrs : List MachineAddress) (acc : String) :
    externalAddressLoop true addrs acc = acc := by
  induction addrs generalizing acc with
  | nil => simp [externalAddressLoop]
  | cons a rest ih => simp [externalAddressLoop, ih]

theorem externalAddressLoop_not_found (addrs : List MachineAddress) (acc : String) :
    externalAddressLoop false addrs acc =
      ((addrs.filter isExternalAddress).map (fun a => endpointURL a.Address)).foldl
        appendURL acc := by
  induction addrs generalizing acc with
  | nil => simp [externalAddressLoop]
  | cons a rest ih =>
    by_cases h : isExternalAddress a = true
    · have h1 : a.AddressType = MachineExternalIP ∨ a.AddressType = MachineExternalDNS := by
        simpa [isExternalAddress] using h
      simp only [externalAddressLoop, h1, if_true, ih, List.filter_cons, h, List.map_cons,
        List.foldl_cons, appendURL]
      simp
    · have h1 : ¬ (a.AddressType = MachineExternalIP ∨ a.AddressType = MachineExternalDNS) := by
        simpa [isExternalAddress] using h
      have h2 : isExternalAddress a = false := by simpa using h
      simp only [externalAddressLoop, h1, if_false, ih, List.filter_cons, h2]
      simp

theorem member_step_eq (m : Machine) (acc : String) :
    externalAddressLoop (internalAddressLoop m.Status.Addresses (acc, false)).2
        m.Status.Addresses (internalAddressLoop m.Status.Addresses (acc, false)).1 =
      (memberURLs m).foldl appendURL acc := by
  rw [internalAddressLoop_eq]
  by_cases h : m.Status.Addresses.any isInternalAddress = true
  · simp only [h, Bool.or_true, externalAddressLoop_found, memberURLs, if_true]
  · have h2 : m.Status.Addresses.any isInternalAddress = false := by simpa using h
    have h3 : m.Status.Addresses.filter isInternalAddress = [] := by
      rw [List.filter_eq_nil_iff]
      intro a ha
      simp only [List.any_eq_false] at h2
      exact h2 a ha
    simp only [h2, Bool.or_false, externalAddressLoop_not_found, memberURLs, h3, List.map_nil,
      List.foldl_nil]
    simp

theorem endpointLoop_eq (members : List Machine) (acc : String)
    (h : ∀ m ∈ members, m.Status.Addresses ≠ []) :
    endpointLoop members acc = some ((members.map memberURLs).flatten.foldl appendURL acc) := by
  induction members generalizing acc with
  | nil => simp [endpointLoop]
  | cons m rest ih =>
    have hm : m.Status.Addresses.length ≠ 0 := by
      have := h m (List.mem_cons_self _ _)
      simpa [List.length_eq_zero] using this
    simp only [endpointLoop, hm, if_false, member_step_eq, List.map_cons, List.flatten_cons,
      List.foldl_append]
    exact ih _ (fun x hx => h x (List.mem_cons_of_mem _ hx))

theorem endpointLoop_none (members : List Machine) (acc : String)
    (h : ∃ m ∈ members, m.Status.Addresses = []) : endpointLoop members acc = none := by
  induction members generalizing acc with
  | nil => simp at h
  | cons m rest ih =>
    by_cases hm : m.Status.Addresses.length = 0
    · simp [endpointLoop, hm]
    · simp only [endpointLoop, hm, if_false]
      apply ih
      obtain ⟨x, hx, hx0⟩ := h
      rcases List.mem_cons.mp hx with rfl | hx'
      · exact absurd (by simp [hx0]) hm
      · exact ⟨x, hx', hx0⟩

theorem foldl_appendURL_go (urls : List String) (acc : String) (hacc : acc ≠ "")
    (h : ∀ u ∈ urls, u ≠ "") :
    urls.foldl appendURL acc = String.intercalate.go acc "," urls := by
  induction urls generalizing acc with
  | nil => simp [String.intercalate.go]
  | cons u rest ih =>
    have hu : u ≠ "" := h u (List.mem_cons_self _ _)
    simp only [List.foldl_cons, String.intercalate.go]
    have : appendURL acc u = acc ++ "," ++ u := by simp [appendURL, hacc]
    rw [this]
    exact ih _ (append_ne_empty _ u hu) (fun x hx => h x (List.mem_cons_of_mem _ hx))

theorem foldl_appendURL_eq_intercalate (urls : List String) (h : ∀ u ∈ urls, u ≠ "") :
    urls.foldl appendURL "" = ",".intercalate urls := by
  cases urls with
  | nil => simp [String.intercalate]
  | cons u rest =>
    have hu : u ≠ "" := h u (List.mem_cons_self _ _)
    have h0 : appendURL "" u = u := by simp [appendURL]
    simp only [List.foldl_cons, String.intercalate, h0]
    exact foldl_appendURL_go rest u hu (fun x hx => h x (List.mem_cons_of_mem _ hx))

theorem memberURLs_ne_empty (members : List Machine) :
    ∀ u ∈ (members.map memberURLs).flatten, u ≠ "" := by
  intro u hu
  simp only [List.mem_flatten, List.mem_map] at hu
  obtain ⟨l, ⟨m, _, rfl⟩, hul⟩ := hu
  unfold memberURLs at hul
  split_ifs at hul <;>
    · simp only [List.mem_map] at hul
      obtain ⟨a, _, rfl⟩ := hul
      exact endpointURL_ne_empty _

theorem endpointLoop_eq_aggregated (members : List Machine)
    (h : ∀ m ∈ members, m.Status.Addresses ≠ []) :
    endpointLoop members "" = some (aggregatedEndpoint members) := by
  rw [endpointLoop_eq members "" h, aggregatedEndpoint,
    foldl_appendURL_eq_intercalate _ (memberURLs_ne_empty members)]

/-! ## The batch probe -/

theorem newRequest_ok (w : World) (url : String) (req : Request)
    (h : http.NewRequest w "GET" url = Except.ok req) :
    req = { Method := "GET", URL := url, Close := false } := by
  unfold http.NewRequest at h
  cases hu : w.urlParse url with
  | error e => simp [hu] at h
  | ok u =>
    simp only [hu] at h
    injection h with h
    exact h.symm

theorem healthCheckLoop_cons_ok (w : World) (client : HttpClient) (ep : String)
    (rest : List String) (h : answers200 w client ep = true) :
    healthCheckLoop w client (ep :: rest) =
      ((healthCheckLoop w client rest).1,
        Event.roundTrip (probeRequest ep) :: (healthCheckLoop w client rest).2) := by
  unfold answers200 at h
  cases hreq : http.NewRequest w "GET" (ep ++ "/health") with
  | error e => simp [hreq] at h
  | ok req =>
    have hr := newRequest_ok w _ req hreq
    subst hr
    simp only [hreq] at h
    cases hdo : w.clientDo client { Method := "GET", URL := ep ++ "/health", Close := true } with
    | error e => simp [hdo] at h
    | ok resp =>
      simp only [hdo, beq_iff_eq] at h
      simp [healthCheckLoop, hreq, hdo, h, probeRequest]

theorem healthCheckLoop_single_trace (w : World) (client : HttpClient) (ep : String) :
    (healthCheckLoop w client [ep]).2 = [] ∨
      (healthCheckLoop w client [ep]).2 = [Event.roundTrip (probeRequest ep)] := by
  cases hreq : http.NewRequest w "GET" (ep ++ "/health") with
  | error e => left; simp [healthCheckLoop, hreq]
  | ok req =>
    have hr := newRequest_ok w _ req hreq
    subst hr
    right
    cases hdo : w.clientDo client { Method := "GET", URL := ep ++ "/health", Close := true } with
    | error e => simp [healthCheckLoop, hreq, hdo, probeRequest]
    | ok resp =>
      by_cases hs : resp.StatusCode = http.StatusOK
      · simp [healthCheckLoop, hreq, hdo, hs, probeRequest]
      · simp [healthCheckLoop, hreq, hdo, hs, probeRequest]

theorem healthCheckLoop_cons_not_ok (w : World) (client : HttpClient) (ep : String)
    (rest : List String) (h : answers200 w client ep = false) :
    healthCheckLoop w client (ep :: rest) = healthCheckLoop w client [ep] := by
  unfold answers200 at h
  cases hreq : http.NewRequest w "GET" (ep ++ "/health") with
  | error e => simp [healthCheckLoop, hreq]
  | ok req =>
    have hr := newRequest_ok w _ req hreq
    subst hr
    simp only [hreq] at h
    cases hdo : w.clientDo client { Method := "GET", URL := ep ++ "/health", Close := true } with
    | error e => simp [healthCheckLoop, hreq, hdo]
    | ok resp =>
      simp only [hdo, beq_eq_false_iff_ne, ne_eq] at h
      simp [healthCheckLoop, hreq, hdo, h]

theorem healthCheckLoop_error (w : World) (client : HttpClient) (eps : List String)
    (e : GoError) (h : (healthCheckLoop w client eps).1 = some e) :
    ∃ pre ep post, eps = pre ++ ep :: post ∧
      (∀ x ∈ pre, answers200 w client x = true) ∧
      (healthCheckLoop w client [ep]).1 = some e ∧
      (healthCheckLoop w client eps).2 =
        pre.map (fun x => Event.roundTrip (probeRequest x)) ++
          (healthCheckLoop w client [ep]).2 := by
  induction eps with
  | nil => simp [healthCheckLoop] at h
  | cons ep rest ih =>
    cases hok : answers200 w client ep with
    | false =>
      rw [healthCheckLoop_cons_not_ok w client ep rest hok] at h ⊢
      exact ⟨[], ep, rest, rfl, by simp, h, by simp⟩
    | true =>
      rw [healthCheckLoop_cons_ok w client ep rest hok] at h ⊢
      obtain ⟨pre, x, post, hsplit, hpre, hx, htr⟩ := ih h
      refine ⟨ep :: pre, x, post, by simp [hsplit], ?_, hx, ?_⟩
      · intro y hy
        rcases List.mem_cons.mp hy with rfl | hy'
        · exact hok
        · exact hpre y hy'
      · simp only [htr, List.map_cons, List.cons_append]

theorem doEtcdHealthCheck_of_certs (w : World) (cluster : Cluster) (endpoints : String)
    (caCert : String) (clientCert : Certificate)
    (hca : w.getCACert cluster = Except.ok caCert)
    (hcert : w.getClientCerts cluster = Except.ok clientCert) :
    doEtcdHealthCheck w cluster endpoints =
      ((healthCheckLoop w (probeClient caCert clientCert) (strings.Split endpoints)).1,
        Event.getCACert :: Event.getClientCerts ::
          (healthCheckLoop w (probeClient caCert clientCert) (strings.Split endpoints)).2) := by
  simp [doEtcdHealthCheck, hca, hcert, probeClient]

theorem pass_refreshes (w : World) (ec : EtcdCluster) (cluster : Cluster)
    (machines : List Machine) (d : Int)
    (hname : IsValidLabelValue cluster.Name = true)
    (hlist : w.listMachines cluster = Except.ok machines)
    (hrep : ec.Spec.Replicas = some d) :
    (updateStatus w ec cluster).ec.Status.Selector = selectorString cluster.Name ∧
      (updateStatus w ec cluster).ec.Status.ReadyReplicas =
        int32 (ownedMembers machines ec cluster).length := by
  rw [updateStatus_of_listing w ec cluster machines d hname hlist hrep]
  split_ifs
  · simp [refreshed]
  · split
    · simp [refreshed]
    · split <;> simp [refreshed, markedReady]
  · simp [refreshed]

theorem pass_probe_error (w : World) (ec : EtcdCluster) (cluster : Cluster)
    (machines : List Machine) (d : Int) (e : GoError)
    (hname : IsValidLabelValue cluster.Name = true)
    (hlist : w.listMachines cluster = Except.ok machines)
    (hrep : ec.Spec.Replicas = some d)
    (hdel : Time.IsZero ec.DeletionTimestamp = true)
    (hcount : int32 (ownedMembers machines ec cluster).length = d)
    (haddr : ∀ m ∈ ownedMembers machines ec cluster, m.Status.Addresses ≠ [])
    (herr : (doEtcdHealthCheck w cluster
      (aggregatedEndpoint (ownedMembers machines ec cluster))).1 = some e) :
    updateStatus w ec cluster =
      { ec := refreshed ec (selectorString cluster.Name)
          (int32 (ownedMembers machines ec cluster).length),
        outcome := Outcome.returned (some e),
        trace := Event.listMachines ::
          (doEtcdHealthCheck w cluster
            (aggregatedEndpoint (ownedMembers machines ec cluster))).2 } := by
  rw [updateStatus_of_listing w ec cluster machines d hname hlist hrep]
  simp only [hdel, hcount, endpointLoop_eq_aggregated _ haddr, herr]
  simp

theorem pass_not_probing (w : World) (ec : EtcdCluster) (cluster : Cluster)
    (machines : List Machine) (d : Int)
    (hname : IsValidLabelValue cluster.Name = true)
    (hlist : w.listMachines cluster = Except.ok machines)
    (hrep : ec.Spec.Replicas = some d)
    (h : Time.IsZero ec.DeletionTimestamp = false ∨
      int32 (ownedMembers machines ec cluster).length ≠ d ∨
      ∃ m ∈ ownedMembers machines ec cluster, m.Status.Addresses = []) :
    updateStatus w ec cluster =
      { ec := refreshed ec (selectorString cluster.Name)
          (int32 (ownedMembers machines ec cluster).length),
        outcome := Outcome.returned none, trace := [Event.listMachines] } := by
  rw [updateStatus_of_listing w ec cluster machines d hname hlist hrep]
  by_cases hdel : Time.IsZero ec.DeletionTimestamp = true
  · by_cases hcount : int32 (ownedMembers machines ec cluster).length = d
    · rcases h with h | h | h
      · simp [hdel] at h
      · exact absurd hcount h
      · simp [hdel, hcount, endpointLoop_none _ "" h]
    · simp [hdel, hcount]
  · simp [hdel]

theorem splitOnChar_no_sep (sep : Char) (a : List Char) (h : sep ∉ a) :
    splitOnChar sep a = [a] := by
  induction a with
  | nil => rfl
  | cons c cs ih =>
    have hc : c ≠ sep := fun hEq => h (by simp [hEq])
    have hcs : sep ∉ cs := fun hm => h (List.mem_cons_of_mem _ hm)
    simp [splitOnChar, hc, ih hcs]

theorem splitOnChar_append_sep (sep : Char) (a rest : List Char) (h : sep ∉ a) :
    splitOnChar sep (a ++ sep :: rest) = a :: splitOnChar sep rest := by
  induction a with
  | nil => simp [splitOnChar]
  | cons c cs ih =>
    have hc : c ≠ sep := fun hEq => h (by simp [hEq])
    have hcs : sep ∉ cs := fun hm => h (List.mem_cons_of_mem _ hm)
    simp [splitOnChar, hc, ih hcs]

theorem intercalate_go_data (urls : List String) (acc : String) :
    (String.intercalate.go acc "," urls).data =
      acc.data ++ (urls.map (fun u => ',' :: u.data)).flatten := by
  induction urls generalizing acc with
  | nil => simp [String.intercalate.go]
  | cons u rest ih =>
    simp only [String.intercalate.go, ih, String.data_append, List.map_cons, List.flatten_cons,
      List.append_assoc]
    rfl

theorem splitOnChar_joined (u : List Char) (rest : List (List Char)) (hu : ',' ∉ u)
    (hrest : ∀ x ∈ rest, ',' ∉ x) :
    splitOnChar ',' (u ++ (rest.map (fun x => ',' :: x)).flatten) = u :: rest := by
  induction rest generalizing u with
  | nil => simpa using splitOnChar_no_sep ',' u hu
  | cons x xs ih =>
    simp only [List.map_cons, List.flatten_cons, List.cons_append]
    rw [splitOnChar_append_sep ',' u _ hu,
      ih x (hrest x (List.mem_cons_self _ _)) (fun y hy => hrest y (List.mem_cons_of_mem _ hy))]

theorem split_intercalate (urls : List String) (hne : urls ≠ [])
    (h : ∀ u ∈ urls, ',' ∉ u.data) : strings.Split (",".intercalate urls) = urls := by
  cases urls with
  | nil => exact absurd rfl hne
  | cons u rest =>
    have h1 := splitOnChar_joined u.data (rest.map String.data)
      (h u (List.mem_cons_self _ _))
      (by
        intro x hx
        obtain ⟨y, hy, rfl⟩ := List.mem_map.mp hx
        exact h y (List.mem_cons_of_mem _ hy))
    simp only [strings.Split, String.intercalate, intercalate_go_data]
    simp only [List.map_map] at h1
    have h2 : (rest.map (fun u => ',' :: u.data)) =
        rest.map ((fun x => ',' :: x) ∘ String.data) := rfl
    rw [h2, h1]
    have h3 : (String.mk ∘ String.data) = id := funext fun _ => rfl
    simp [h3]

theorem split_empty : strings.Split "" = [""] := by decide

theorem endpointURL_no_comma (a : String) (h : ',' ∉ a.data) : ',' ∉ (endpointURL a).data := by
  have h1 : ',' ∉ "https://".data := by decide
  have h2 : ',' ∉ ":2379".data := by decide
  simp only [endpointURL, String.data_append, List.mem_append, not_or]
  exact ⟨⟨h1, h⟩, h2⟩

theorem split_aggregatedEndpoint (members : List Machine)
    (hne : (members.map memberURLs).flatten ≠ [])
    (h : ∀ m ∈ members, ∀ a ∈ m.Status.Addresses, ',' ∉ a.Address.data) :
    strings.Split (aggregatedEndpoint members) = (members.map memberURLs).flatten := by
  apply split_intercalate _ hne
  intro u hu
  simp only [List.mem_flatten, List.mem_map] at hu
  obtain ⟨l, ⟨m, hm, rfl⟩, hul⟩ := hu
  unfold memberURLs at hul
  split_ifs at hul <;>
    · simp only [List.mem_map, List.mem_filter] at hul
      obtain ⟨a, ⟨ha, _⟩, rfl⟩ := hul
      exact endpointURL_no_comma _ (h m hm a ha)

theorem healthCheckLoop_single_error (w : World) (client : HttpClient) (ep : String)
    (e : GoError) (h : (healthCheckLoop w client [ep]).1 = some e) :
    (http.NewRequest w "GET" (ep ++ "/health") = Except.error e ∧
        (healthCheckLoop w client [ep]).2 = []) ∨
      (∃ e0, w.clientDo client (probeRequest ep) = Except.error e0 ∧
        e = GoError.wrap e0 "error checking etcd member health" ∧
        (healthCheckLoop w client [ep]).2 = [Event.roundTrip (probeRequest ep)]) := by
  cases hreq : http.NewRequest w "GET" (ep ++ "/health") with
  | error e1 =>
    left
    have h1 : healthCheckLoop w client [ep] = (some e1, []) := by
      simp [healthCheckLoop, hreq]
    rw [h1] at h ⊢
    injection h with h
    subst h
    exact ⟨rfl, rfl⟩
  | ok req =>
    have hr := newRequest_ok w _ req hreq
    subst hr
    right
    cases hdo : w.clientDo client { Method := "GET", URL := ep ++ "/health", Close := true } with
    | error e0 =>
      refine ⟨e0, hdo, ?_, ?_⟩
      · simp only [healthCheckLoop, hreq, hdo, errors.Wrap] at h
        injection h with h
        exact h.symm
      · simp [healthCheckLoop, hreq, hdo, probeRequest]
    | ok resp =>
      by_cases hs : resp.StatusCode = http.StatusOK
      · simp [healthCheckLoop, hreq, hdo, hs] at h
      · simp [healthCheckLoop, hreq, hdo, hs, errors.Wrap] at h

/-! ## The passes that stop before the count -/

theorem etcdPlaneSelector_invalid (n : String) (h : IsValidLabelValue n = false) :
    EtcdPlaneSelectorForCluster n = Except.error (GoError.base "invalid label value") := by
  simp [EtcdPlaneSelectorForCluster, NewRequirement, isQualifiedName_clusterLabelName, h]

theorem pass_invalid_name (w : World) (ec : EtcdCluster) (cluster : Cluster)
    (h : IsValidLabelValue cluster.Name = false) :
    updateStatus w ec cluster =
      { ec := ec, outcome := Outcome.panicked (GoError.base "invalid label value"),
        trace := [] } := by
  simp only [updateStatus, etcdPlaneSelector_invalid cluster.Name h]

theorem valid_of_listed (w : World) (ec : EtcdCluster) (cluster : Cluster)
    (h : Event.listMachines ∈ (updateStatus w ec cluster).trace) :
    IsValidLabelValue cluster.Name = true := by
  cases hv : IsValidLabelValue cluster.Name with
  | true => rfl
  | false =>
    rw [pass_invalid_name w ec cluster hv] at h
    simp at h


/-- C1 (the code departs from the claim): three owned members with internal addresses, three
desired, the second endpoint answers the health GET with status 503. The pass returns nil,
marks the cluster ready, which it was not before, and records the endpoint string; the third
endpoint is never asked. The non-200 branch of `doEtcdHealthCheck` wraps the nil `err` of the
successful round trip, and `errors.Wrap` of nil is nil. -/
theorem updateStatus_non200_marks_ready :
    (sampleEtcd 3).Status.Ready = false ∧
    (updateStatus (sampleWorld threeMachines secondUnavailable) (sampleEtcd 3)
      sampleCluster).ec.Status.Ready = true ∧
    updateStatus (sampleWorld threeMachines secondUnavailable) (sampleEtcd 3) sampleCluster =
      { ec := markedReady
          (refreshed (sampleEtcd 3)
            "cluster.x-k8s.io/cluster-name=c1,cluster.x-k8s.io/etcd-cluster" 3)
          "https://10.0.0.1:2379,https://10.0.0.2:2379,https://10.0.0.3:2379",
        outcome := Outcome.returned none,
        trace := [Event.listMachines, Event.getCACert, Event.getClientCerts,
          Event.roundTrip (probeRequest "https://10.0.0.1:2379"),
          Event.roundTrip (probeRequest "https://10.0.0.2:2379")] } := by
  decide

/-- C2 (the code departs from the claim): the TCP pre-check succeeds and the GET is answered
with status 503; `performEndpointHealthCheck` returns nil, not the "member not ready, retry"
error, because the branch wraps the nil `err` of the successful `ioutil.ReadAll`. -/
theorem performEndpointHealthCheck_non200_returns_nil :
    isPortOpen (sampleWorld [] (fun _ => responseOf 503 "unavailable"))
      "https://10.0.0.1:2379" = true ∧
    (performEndpointHealthCheck (sampleWorld [] (fun _ => responseOf 503 "unavailable")) {}
      sampleCluster "https://10.0.0.1:2379").outcome = Outcome.returned none ∧
    (performEndpointHealthCheck (sampleWorld [] (fun _ => responseOf 503 "unavailable")) {}
      sampleCluster "https://10.0.0.1:2379").trace =
        [Event.getCACert, Event.getClientCerts, Event.dial "https://10.0.0.1:2379",
          Event.roundTrip { Method := "GET", URL := "https://10.0.0.1:2379/health" }] := by
  decide

/-- C3 (the code departs from the claim): one owned member, one desired, the endpoint answers
200 with the body of an unhealthy member, or with a body that is not JSON. The function
`parseEtcdHealthCheckOutput` rejects both bodies, but the batch probe never reads the body:
the pass returns nil and marks the cluster ready. -/
theorem updateStatus_unhealthy_body_marks_ready :
    parseEtcdHealthCheckOutput "\x7b\"health\":\"false\"\x7d" =
      some (healthReturnedError "false") ∧
    parseEtcdHealthCheckOutput "not-json" = some jsonSyntaxError ∧
    (updateStatus
      (sampleWorld oneMachine (fun _ => responseOf 200 "\x7b\"health\":\"false\"\x7d"))
      (sampleEtcd 1) sampleCluster).outcome = Outcome.returned none ∧
    (updateStatus
      (sampleWorld oneMachine (fun _ => responseOf 200 "\x7b\"health\":\"false\"\x7d"))
      (sampleEtcd 1) sampleCluster).ec.Status.Ready = true ∧
    (updateStatus (sampleWorld oneMachine (fun _ => responseOf 200 "not-json"))
      (sampleEtcd 1) sampleCluster).outcome = Outcome.returned none ∧
    (updateStatus (sampleWorld oneMachine (fun _ => responseOf 200 "not-json"))
      (sampleEtcd 1) sampleCluster).ec.Status.Ready = true := by
  decide

/-- C4: when the batch probe returns an error, the pass returns that same error, the readiness
flag and the endpoint keep the values they had before the pass, and no endpoint after the
failing one is asked. Either the CA certificate could not be fetched, or the client
certificate could not, and no request was sent; or the endpoints split as
`pre ++ ep :: post` where every endpoint of `pre` answered with status 200 and `ep` is the
endpoint that failed, in the construction of its request or in its round trip: the requests
sent are those to `pre`, in order, followed by the one to `ep` if its request could be built,
and none to `post`. -/
theorem updateStatus_probe_error_propagates (w : World) (ec : EtcdCluster) (cluster : Cluster)
    (machines : List Machine) (d : Int) (e : GoError)
    (hname : IsValidLabelValue cluster.Name = true)
    (hlist : w.listMachines cluster = Except.ok machines)
    (hrep : ec.Spec.Replicas = some d)
    (hdel : Time.IsZero ec.DeletionTimestamp = true)
    (hcount : int32 (ownedMembers machines ec cluster).length = d)
    (haddr : ∀ m ∈ ownedMembers machines ec cluster, m.Status.Addresses ≠ [])
    (herr : (doEtcdHealthCheck w cluster
      (aggregatedEndpoint (ownedMembers machines ec cluster))).1 = some e) :
    (updateStatus w ec cluster).outcome = Outcome.returned (some e) ∧
    (updateStatus w ec cluster).ec.Status.Ready = ec.Status.Ready ∧
    (updateStatus w ec cluster).ec.Status.Endpoint = ec.Status.Endpoint ∧
    ((w.getCACert cluster = Except.error e ∧
        (updateStatus w ec cluster).trace = [Event.listMachines, Event.getCACert]) ∨
      (∃ caCert e0, w.getCACert cluster = Except.ok caCert ∧
        w.getClientCerts cluster = Except.error e0 ∧
        e = GoError.wrap e0 "Error getting client cert for healthcheck" ∧
        (updateStatus w ec cluster).trace =
          [Event.listMachines, Event.getCACert, Event.getClientCerts]) ∨
      ∃ caCert clientCert pre ep post,
        w.getCACert cluster = Except.ok caCert ∧
        w.getClientCerts cluster = Except.ok clientCert ∧
        strings.Split (aggregatedEndpoint (ownedMembers machines ec cluster)) =
          pre ++ ep :: post ∧
        (∀ x ∈ pre, answers200 w (probeClient caCert clientCert) x = true) ∧
        answers200 w (probeClient caCert clientCert) ep = false ∧
        ((http.NewRequest w "GET" (ep ++ "/health") = Except.error e ∧
            (updateStatus w ec cluster).trace =
              Event.listMachines :: Event.getCACert :: Event.getClientCerts ::
                pre.map (fun x => Event.roundTrip (probeRequest x))) ∨
          (∃ e0, w.clientDo (probeClient caCert clientCert) (probeRequest ep) =
              Except.error e0 ∧
            e = GoError.wrap e0 "error checking etcd member health" ∧
            (updateStatus w ec cluster).trace =
              Event.listMachines :: Event.getCACert :: Event.getClientCerts ::
                (pre.map (fun x => Event.roundTrip (probeRequest x)) ++
                  [Event.roundTrip (probeRequest ep)])))) := by
  rw [pass_probe_error w ec cluster machines d e hname hlist hrep hdel hcount haddr herr]
  refine ⟨rfl, rfl, rfl, ?_⟩
  cases hca : w.getCACert cluster with
  | error e1 =>
    left
    have h1 : doEtcdHealthCheck w cluster
        (aggregatedEndpoint (ownedMembers machines ec cluster)) =
        (some e1, [Event.getCACert]) := by
      simp [doEtcdHealthCheck, hca]
    rw [h1] at herr ⊢
    injection herr with herr
    subst herr
    exact ⟨rfl, rfl⟩
  | ok caCert =>
    cases hcert : w.getClientCerts cluster with
    | error e2 =>
      right; left
      have h1 : doEtcdHealthCheck w cluster
          (aggregatedEndpoint (ownedMembers machines ec cluster)) =
          (some (GoError.wrap e2 "Error getting client cert for healthcheck"),
            [Event.getCACert, Event.getClientCerts]) := by
        simp [doEtcdHealthCheck, hca, hcert, errors.Wrap]
      rw [h1] at herr ⊢
      injection herr with herr
      exact ⟨caCert, e2, rfl, rfl, herr.symm, rfl⟩
    | ok clientCert =>
      right; right
      rw [doEtcdHealthCheck_of_certs w cluster _ caCert clientCert hca hcert] at herr ⊢
      obtain ⟨pre, ep, post, hsplit, hpre, hep, htr⟩ := healthCheckLoop_error w _ _ e herr
      have hfalse : answers200 w (probeClient caCert clientCert) ep = false := by
        cases hok : answers200 w (probeClient caCert clientCert) ep with
        | false => rfl
        | true =>
          rw [healthCheckLoop_cons_ok w _ ep [] hok] at hep
          simp [healthCheckLoop] at hep
      refine ⟨caCert, clientCert, pre, ep, post, rfl, rfl, hsplit, hpre, hfalse, ?_⟩
      rcases healthCheckLoop_single_error w _ ep e hep with ⟨hreq, ht⟩ | ⟨e0, hdo, he, ht⟩
      · left
        refine ⟨hreq, ?_⟩
        simp only [htr, ht, List.append_nil]
      · right
        refine ⟨e0, hdo, he, ?_⟩
        simp only [htr, ht]

/-- Witness for C4: three owned members, the round trip to the second endpoint is refused: the
first two endpoints are asked and the third is not. -/
theorem updateStatus_probe_error_propagates_witness :
    (updateStatus secondRefused (sampleEtcd 3) sampleCluster).trace =
      [Event.listMachines, Event.getCACert, Event.getClientCerts,
        Event.roundTrip (probeRequest "https://10.0.0.1:2379"),
        Event.roundTrip (probeRequest "https://10.0.0.2:2379")] ∧
    ((updateStatus secondRefused (sampleEtcd 3) sampleCluster).outcome =
        Outcome.returned (some (GoError.wrap (GoError.base "connection refused")
          "error checking etcd member health")) ∧
    (updateStatus secondRefused (sampleEtcd 3) sampleCluster).ec.Status.Ready =
      (sampleEtcd 3).Status.Ready ∧
    (updateStatus secondRefused (sampleEtcd 3) sampleCluster).ec.Status.Endpoint =
      (sampleEtcd 3).Status.Endpoint ∧
    ((secondRefused.getCACert sampleCluster =
          Except.error (GoError.wrap (GoError.base "connection refused")
            "error checking etcd member health") ∧
        (updateStatus secondRefused (sampleEtcd 3) sampleCluster).trace =
          [Event.listMachines, Event.getCACert]) ∨
      (∃ caCert e0, secondRefused.getCACert sampleCluster = Except.ok caCert ∧
        secondRefused.getClientCerts sampleCluster = Except.error e0 ∧
        GoError.wrap (GoError.base "connection refused") "error checking etcd member health" =
          GoError.wrap e0 "Error getting client cert for healthcheck" ∧
        (updateStatus secondRefused (sampleEtcd 3) sampleCluster).trace =
          [Event.listMachines, Event.getCACert, Event.getClientCerts]) ∨
      ∃ caCert clientCert pre ep post,
        secondRefused.getCACert sampleCluster = Except.ok caCert ∧
        secondRefused.getClientCerts sampleCluster = Except.ok clientCert ∧
        strings.Split (aggregatedEndpoint (ownedMembers threeMachines (sampleEtcd 3)
          sampleCluster)) = pre ++ ep :: post ∧
        (∀ x ∈ pre, answers200 secondRefused (probeClient caCert clientCert) x = true) ∧
        answers200 secondRefused (probeClient caCert clientCert) ep = false ∧
        ((http.NewRequest secondRefused "GET" (ep ++ "/health") =
              Except.error (GoError.wrap (GoError.base "connection refused")
                "error checking etcd member health") ∧
            (updateStatus secondRefused (sampleEtcd 3) sampleCluster).trace =
              Event.listMachines :: Event.getCACert :: Event.getClientCerts ::
                pre.map (fun x => Event.roundTrip (probeRequest x))) ∨
          (∃ e0, secondRefused.clientDo (probeClient caCert clientCert) (probeRequest ep) =
              Except.error e0 ∧
            GoError.wrap (GoError.base "connection refused")
                "error checking etcd member health" =
              GoError.wrap e0 "error checking etcd member health" ∧
            (updateStatus secondRefused (sampleEtcd 3) sampleCluster).trace =
              Event.listMachines :: Event.getCACert :: Event.getClientCerts ::
                (pre.map (fun x => Event.roundTrip (probeRequest x)) ++
                  [Event.roundTrip (probeRequest ep)]))))) :=
  ⟨by decide,
    updateStatus_probe_error_propagates secondRefused (sampleEtcd 3) sampleCluster
      threeMachines 3
      (GoError.wrap (GoError.base "connection refused") "error checking etcd member health")
      (by decide) rfl rfl (by decide) (by decide) (by decide) (by decide)⟩

/-- C6: for every list of members that each have at least one address, the endpoint string
that the aggregation loop of `updateStatus` builds is the reference string: the URL lists of
the members (internal addresses if there is one, otherwise external addresses, in reported
order, duplicates kept), concatenated in member order and joined by single commas; no URL is
empty, so that no separator leads, trails or is doubled. -/
theorem endpoint_aggregation_eq_reference (members : List Machine)
    (haddr : ∀ m ∈ members, m.Status.Addresses ≠ []) :
    endpointLoop members "" = some (",".intercalate (members.map memberURLs).flatten) ∧
    (∀ u ∈ (members.map memberURLs).flatten, u ≠ "") ∧
    (∀ m ∈ members, m.Status.Addresses.any isInternalAddress = true →
      memberURLs m =
        (m.Status.Addresses.filter isInternalAddress).map (fun a => endpointURL a.Address)) ∧
    (∀ m ∈ members, m.Status.Addresses.any isInternalAddress = false →
      memberURLs m =
        (m.Status.Addresses.filter isExternalAddress).map (fun a => endpointURL a.Address)) := by
  refine ⟨endpointLoop_eq_aggregated members haddr, memberURLs_ne_empty members, ?_, ?_⟩
  · intro m _ h
    simp [memberURLs, h]
  · intro m _ h
    simp [memberURLs, h]

/-- Witness for C6: an internal 10.0.0.1 with an external 1.2.3.4 gives the internal URL
only, an external 1.2.3.4 alone gives its URL, and a duplicated address gives its URL
twice. -/
theorem endpoint_aggregation_eq_reference_witness :
    (endpointLoop [internalAndExternal] "" = some "https://10.0.0.1:2379" ∧
      endpointLoop [externalOnly] "" = some "https://1.2.3.4:2379" ∧
      endpointLoop [internalAndExternal, externalOnly, externalOnly] "" =
        some "https://10.0.0.1:2379,https://1.2.3.4:2379,https://1.2.3.4:2379") ∧
    (endpointLoop [internalAndExternal, externalOnly] "" =
        some (",".intercalate ([internalAndExternal, externalOnly].map memberURLs).flatten) ∧
    (∀ u ∈ ([internalAndExternal, externalOnly].map memberURLs).flatten, u ≠ "") ∧
    (∀ m ∈ [internalAndExternal, externalOnly],
      m.Status.Addresses.any isInternalAddress = true →
      memberURLs m =
        (m.Status.Addresses.filter isInternalAddress).map (fun a => endpointURL a.Address)) ∧
    (∀ m ∈ [internalAndExternal, externalOnly],
      m.Status.Addresses.any isInternalAddress = false →
      memberURLs m =
        (m.Status.Addresses.filter isExternalAddress).map
          (fun a => endpointURL a.Address))) :=
  ⟨by decide,
    endpoint_aggregation_eq_reference [internalAndExternal, externalOnly] (by decide)⟩

/-- C7: one of the owned members, wherever it stands in the iteration, has reported no
address: the pass returns nil, makes no call after the listing (no certificate fetch, no
probe), and leaves the readiness flag and the endpoint as they were. This holds in particular
for a cluster without deletion timestamp whose owned-member count equals the desired replica
count, the one case in which the pass looks at the addresses at all. -/
theorem updateStatus_member_without_address (w : World) (ec : EtcdCluster)
    (cluster : Cluster) (machines : List Machine) (d : Int)
    (hname : IsValidLabelValue cluster.Name = true)
    (hlist : w.listMachines cluster = Except.ok machines)
    (hrep : ec.Spec.Replicas = some d)
    (hmissing : ∃ m ∈ ownedMembers machines ec cluster, m.Status.Addresses = []) :
    (updateStatus w ec cluster).outcome = Outcome.returned none ∧
    (updateStatus w ec cluster).trace = [Event.listMachines] ∧
    (updateStatus w ec cluster).ec.Status.Ready = ec.Status.Ready ∧
    (updateStatus w ec cluster).ec.Status.Endpoint = ec.Status.Endpoint := by
  rw [pass_not_probing w ec cluster machines d hname hlist hrep (Or.inr (Or.inr hmissing))]
  exact ⟨rfl, rfl, rfl, rfl⟩

/-- Witness for C7: no deletion timestamp, two desired, two owned members, and the second
member has no address, though the first has one. -/
theorem updateStatus_member_without_address_witness :
    (Time.IsZero (sampleEtcd 2).DeletionTimestamp = true ∧
      ((ownedMembers oneWithoutAddress (sampleEtcd 2) sampleCluster).length : Int) = 2) ∧
    ((updateStatus (sampleWorld oneWithoutAddress (fun _ => healthyResponse)) (sampleEtcd 2)
      sampleCluster).outcome = Outcome.returned none ∧
    (updateStatus (sampleWorld oneWithoutAddress (fun _ => healthyResponse)) (sampleEtcd 2)
      sampleCluster).trace = [Event.listMachines] ∧
    (updateStatus (sampleWorld oneWithoutAddress (fun _ => healthyResponse)) (sampleEtcd 2)
      sampleCluster).ec.Status.Ready = (sampleEtcd 2).Status.Ready ∧
    (updateStatus (sampleWorld oneWithoutAddress (fun _ => healthyResponse)) (sampleEtcd 2)
      sampleCluster).ec.Status.Endpoint = (sampleEtcd 2).Status.Endpoint) :=
  ⟨by decide,
    updateStatus_member_without_address
      (sampleWorld oneWithoutAddress (fun _ => healthyResponse))
      (sampleEtcd 2) sampleCluster oneWithoutAddress 2 (by decide) rfl rfl (by decide)⟩

/-- C8, as stated, fails: a resource under deletion whose replica count is unset, and a
listing that succeeds with three owned machines. The pass panics on the nil pointer before it
stores the count: no nil is returned and the stored count keeps its old value 1. -/
theorem deleting_cluster_unset_replicas_panics :
    Time.IsZero deletingEtcdUnset.DeletionTimestamp = false ∧
    (ownedMembers threeMachines deletingEtcdUnset sampleCluster).length = 3 ∧
    updateStatus (sampleWorld threeMachines (fun _ => healthyResponse)) deletingEtcdUnset
        sampleCluster =
      { ec := selected deletingEtcdUnset
          "cluster.x-k8s.io/cluster-name=c1,cluster.x-k8s.io/etcd-cluster",
        outcome := Outcome.panicked nilDereference,
        trace := [Event.listMachines] } ∧
    (updateStatus (sampleWorld threeMachines (fun _ => healthyResponse)) deletingEtcdUnset
      sampleCluster).ec.Status.ReadyReplicas = 1 := by
  decide

/-- C8, amended: a cluster resource with a deletion timestamp that is set and not zero and
with its replica count set, in a pass that lists the fleet with success (the pass reaches the
listing exactly when the cluster name is a valid label value): the pass stores the selector
string and the owned-member count, makes no call after the listing (no certificate fetch, no
probe), changes nothing else in the resource, in particular neither the readiness flag nor
the endpoint, and returns nil. -/
theorem updateStatus_deleting_cluster (w : World) (ec : EtcdCluster) (cluster : Cluster)
    (machines : List Machine) (d : Int)
    (hlisted : Event.listMachines ∈ (updateStatus w ec cluster).trace)
    (hlist : w.listMachines cluster = Except.ok machines)
    (hrep : ec.Spec.Replicas = some d)
    (hdel : Time.IsZero ec.DeletionTimestamp = false) :
    (updateStatus w ec cluster).outcome = Outcome.returned none ∧
    (updateStatus w ec cluster).trace = [Event.listMachines] ∧
    (updateStatus w ec cluster).ec =
      refreshed ec (selectorString cluster.Name)
        (int32 (ownedMembers machines ec cluster).length) ∧
    (updateStatus w ec cluster).ec.Status.Selector = selectorString cluster.Name ∧
    (updateStatus w ec cluster).ec.Status.ReadyReplicas =
      int32 (ownedMembers machines ec cluster).length ∧
    (updateStatus w ec cluster).ec.Status.Ready = ec.Status.Ready ∧
    (updateStatus w ec cluster).ec.Status.Endpoint = ec.Status.Endpoint := by
  have hname := valid_of_listed w ec cluster hlisted
  rw [pass_not_probing w ec cluster machines d hname hlist hrep (Or.inl hdel)]
  exact ⟨rfl, rfl, rfl, rfl, rfl, rfl, rfl⟩

/-- Witness for C8, amended: a resource under deletion that was marked ready before, three
owned members that are all healthy: the count becomes 3, the flag and the endpoint stay. -/
theorem updateStatus_deleting_cluster_witness :
    (updateStatus (sampleWorld threeMachines (fun _ => healthyResponse)) deletingEtcd
        sampleCluster).ec.Status.ReadyReplicas = 3 ∧
    ((updateStatus (sampleWorld threeMachines (fun _ => healthyResponse)) deletingEtcd
        sampleCluster).outcome = Outcome.returned none ∧
    (updateStatus (sampleWorld threeMachines (fun _ => healthyResponse)) deletingEtcd
        sampleCluster).trace = [Event.listMachines] ∧
    (updateStatus (sampleWorld threeMachines (fun _ => healthyResponse)) deletingEtcd
        sampleCluster).ec =
      refreshed deletingEtcd (selectorString sampleCluster.Name)
        (int32 (ownedMembers threeMachines deletingEtcd sampleCluster).length) ∧
    (updateStatus (sampleWorld threeMachines (fun _ => healthyResponse)) deletingEtcd
        sampleCluster).ec.Status.Selector = selectorString sampleCluster.Name ∧
    (updateStatus (sampleWorld threeMachines (fun _ => healthyResponse)) deletingEtcd
        sampleCluster).ec.Status.ReadyReplicas =
      int32 (ownedMembers threeMachines deletingEtcd sampleCluster).length ∧
    (updateStatus (sampleWorld threeMachines (fun _ => healthyResponse)) deletingEtcd
        sampleCluster).ec.Status.Ready = deletingEtcd.Status.Ready ∧
    (updateStatus (sampleWorld threeMachines (fun _ => healthyResponse)) deletingEtcd
        sampleCluster).ec.Status.Endpoint = deletingEtcd.Status.Endpoint) :=
  ⟨by decide,
    updateStatus_deleting_cluster (sampleWorld threeMachines (fun _ => healthyResponse))
      deletingEtcd sampleCluster threeMachines 3 (by decide) rfl rfl (by decide)⟩

/-- The same listing with the deletion timestamps of the machines replaced. -/
theorem ownedMembers_length_deletion (machines : List Machine) (ec : EtcdCluster)
    (cluster : Cluster) (f : Machine → Option Time) :
    (ownedMembers (machines.map (fun m => { m with DeletionTimestamp := f m })) ec
      cluster).length = (ownedMembers machines ec cluster).length := by
  have h1 : (isEtcdMachineOf cluster.Name ∘
      fun m : Machine => { m with DeletionTimestamp := f m }) =
      isEtcdMachineOf cluster.Name := funext fun _ => rfl
  have h2 : ((fun m => IsOwnedByObject m ec) ∘
      fun m : Machine => { m with DeletionTimestamp := f m }) =
      fun m => IsOwnedByObject m ec := funext fun _ => rfl
  rw [ownedMembers, ownedMembers, List.filter_map, List.filter_map, List.length_map, h1, h2]

/-- The owned members of a listing depend on the cluster resource through its identity
only. -/
theorem ownedMembers_identity (machines : List Machine) (ec ec2 : EtcdCluster)
    (cluster : Cluster) (hg : ec2.Group = ec.Group) (hk : ec2.Kind = ec.Kind)
    (hn : ec2.Name = ec.Name) :
    ownedMembers machines ec2 cluster = ownedMembers machines ec cluster := by
  simp [ownedMembers, IsOwnedByObject, hg, hk, hn]

/-- C10, as stated, fails: one owned machine with a deletion timestamp and one desired
replica. The machine is counted, the count 1 equals the desired count, the probe is run and
the cluster is marked ready, while the number of owned machines without deletion timestamp
is 0. -/
theorem deleting_machine_is_counted :
    HasDeletionTimestamp (some deletingMachine) = true ∧
    ((ownedMembers [deletingMachine] (sampleEtcd 1) sampleCluster).filter
      (fun m => ActiveMachines (some m))).length = 0 ∧
    (updateStatus (sampleWorld [deletingMachine] (fun _ => healthyResponse)) (sampleEtcd 1)
      sampleCluster).ec.Status.ReadyReplicas = 1 ∧
    (updateStatus (sampleWorld [deletingMachine] (fun _ => healthyResponse)) (sampleEtcd 1)
      sampleCluster).trace =
        [Event.listMachines, Event.getCACert, Event.getClientCerts,
          Event.roundTrip (probeRequest "https://10.0.0.1:2379")] ∧
    (updateStatus (sampleWorld [deletingMachine] (fun _ => healthyResponse)) (sampleEtcd 1)
      sampleCluster).ec.Status.Ready = true := by
  decide

/-- C10, amended: the count used in the readiness decision is the number of owned members
whether or not they carry a deletion timestamp: the members for which `ActiveMachines` holds
and the members for which `HasDeletionTimestamp` holds each contribute 1. -/
theorem updateStatus_counts_deleting_members (w : World) (ec : EtcdCluster)
    (cluster : Cluster) (machines : List Machine) (d : Int)
    (hname : IsValidLabelValue cluster.Name = true)
    (hlist : w.listMachines cluster = Except.ok machines)
    (hrep : ec.Spec.Replicas = some d) :
    (updateStatus w ec cluster).ec.Status.ReadyReplicas =
      int32 ((((ownedMembers machines ec cluster).filter
          (fun m => ActiveMachines (some m))).length +
        ((ownedMembers machines ec cluster).filter
          (fun m => HasDeletionTimestamp (some m))).length : Nat) : Int) := by
  rw [(pass_refreshes w ec cluster machines d hname hlist hrep).2]
  have h : (fun m : Machine => HasDeletionTimestamp (some m)) =
      fun m => !ActiveMachines (some m) := funext fun _ => rfl
  rw [h, ← List.countP_eq_length_filter, ← List.countP_eq_length_filter]
  congr 2
  rw [List.length_eq_countP_add_countP (fun m => ActiveMachines (some m))]
  congr 1
  apply List.countP_congr
  intro m _
  simp

/-- Witness for C10, amended: one active and one deleting owned machine give a count of 2. -/
theorem updateStatus_counts_deleting_members_witness :
    (updateStatus
      (sampleWorld (deletingMachine :: oneMachine) (fun _ => healthyResponse)) (sampleEtcd 2)
      sampleCluster).ec.Status.ReadyReplicas = 2 ∧
    (updateStatus
      (sampleWorld (deletingMachine :: oneMachine) (fun _ => healthyResponse)) (sampleEtcd 2)
      sampleCluster).ec.Status.ReadyReplicas =
      int32 ((((ownedMembers (deletingMachine :: oneMachine) (sampleEtcd 2)
          sampleCluster).filter (fun m => ActiveMachines (some m))).length +
        ((ownedMembers (deletingMachine :: oneMachine) (sampleEtcd 2) sampleCluster).filter
          (fun m => HasDeletionTimestamp (some m))).length : Nat) : Int) :=
  ⟨by decide,
    updateStatus_counts_deleting_members
      (sampleWorld (deletingMachine :: oneMachine) (fun _ => healthyResponse)) (sampleEtcd 2)
      sampleCluster (deletingMachine :: oneMachine) 2 (by decide) rfl rfl⟩

/-- C9, as stated, fails: a resource without deletion timestamp whose replica count is
unset, and a listing that succeeds with three owned machines. The pass panics on the nil
pointer before it stores the count, so that after the pass the stored count is the old value
1 and not the number 3 of owned machines. -/
theorem count_not_stored_unset_replicas :
    (sampleWorld threeMachines (fun _ => healthyResponse)).listMachines sampleCluster =
      Except.ok threeMachines ∧
    (ownedMembers threeMachines readyEtcdUnset sampleCluster).length = 3 ∧
    readyEtcdUnset.Status.ReadyReplicas = 1 ∧
    (updateStatus (sampleWorld threeMachines (fun _ => healthyResponse)) readyEtcdUnset
      sampleCluster).trace = [Event.listMachines] ∧
    (updateStatus (sampleWorld threeMachines (fun _ => healthyResponse)) readyEtcdUnset
      sampleCluster).outcome = Outcome.panicked nilDereference ∧
    (updateStatus (sampleWorld threeMachines (fun _ => healthyResponse)) readyEtcdUnset
      sampleCluster).ec.Status.ReadyReplicas = 1 :=
  ⟨rfl, by decide, by decide, by decide, by decide, by decide⟩

/-- C9, amended: after a pass that lists the fleet with success for a resource whose replica
count is set, the stored count is the number of listed machines that match the etcd selector
of the cluster and are owned by the cluster resource (as an `int32`, which is the number
itself below 2147483648). A second pass over the same listing with other deletion timestamps
on the machines, for a resource with the same identity and a replica count set, but any other
status and deletion timestamp, stores the same count. -/
theorem updateStatus_count_recomputed (w w2 : World) (ec ec2 : EtcdCluster)
    (cluster : Cluster) (machines : List Machine) (d d2 : Int) (f : Machine → Option Time)
    (hlisted : Event.listMachines ∈ (updateStatus w ec cluster).trace)
    (hlist : w.listMachines cluster = Except.ok machines)
    (hlist2 : w2.listMachines cluster =
      Except.ok (machines.map (fun m => { m with DeletionTimestamp := f m })))
    (hrep : ec.Spec.Replicas = some d)
    (hrep2 : ec2.Spec.Replicas = some d2)
    (hg : ec2.Group = ec.Group) (hk : ec2.Kind = ec.Kind) (hn : ec2.Name = ec.Name) :
    (updateStatus w ec cluster).ec.Status.ReadyReplicas =
      int32 ((machines.filter (isEtcdMachineOf cluster.Name)).filter
        (fun m => IsOwnedByObject m ec)).length ∧
    ((updateStatus w ec cluster).ec.Status.ReadyReplicas =
        ((machines.filter (isEtcdMachineOf cluster.Name)).filter
          (fun m => IsOwnedByObject m ec)).length ∨
      2147483648 ≤ ((machines.filter (isEtcdMachineOf cluster.Name)).filter
        (fun m => IsOwnedByObject m ec)).length) ∧
    (updateStatus w2 ec2 cluster).ec.Status.ReadyReplicas =
      (updateStatus w ec cluster).ec.Status.ReadyReplicas := by
  have hname := valid_of_listed w ec cluster hlisted
  have h1 := (pass_refreshes w ec cluster machines d hname hlist hrep).2
  have h2 := (pass_refreshes w2 ec2 cluster _ d2 hname hlist2 hrep2).2
  refine ⟨h1, ?_, ?_⟩
  · by_cases hlt : (ownedMembers machines ec cluster).length < 2147483648
    · left
      rw [h1]
      exact int32_of_small _ hlt
    · right
      exact Nat.le_of_not_lt hlt
  · rw [h1, h2, ownedMembers_identity _ ec ec2 cluster hg hk hn,
      ownedMembers_length_deletion]

/-- Witness for C9, amended: a first pass over three owned machines for a fresh resource, and
a second pass over the same machines, now all under deletion, for the same resource under
deletion, marked ready before and with a stored count of 1: both passes store 3. -/
theorem updateStatus_count_recomputed_witness :
    ((updateStatus (sampleWorld threeMachines (fun _ => healthyResponse)) (sampleEtcd 3)
        sampleCluster).ec.Status.ReadyReplicas = 3 ∧
      deletingEtcd.Status.ReadyReplicas = 1 ∧
      (updateStatus (sampleWorld threeDeleting (fun _ => healthyResponse))
        deletingEtcd sampleCluster).ec.Status.ReadyReplicas = 3) ∧
    ((updateStatus (sampleWorld threeMachines (fun _ => healthyResponse)) (sampleEtcd 3)
        sampleCluster).ec.Status.ReadyReplicas =
      int32 ((threeMachines.filter (isEtcdMachineOf sampleCluster.Name)).filter
        (fun m => IsOwnedByObject m (sampleEtcd 3))).length ∧
    ((updateStatus (sampleWorld threeMachines (fun _ => healthyResponse)) (sampleEtcd 3)
          sampleCluster).ec.Status.ReadyReplicas =
        ((threeMachines.filter (isEtcdMachineOf sampleCluster.Name)).filter
          (fun m => IsOwnedByObject m (sampleEtcd 3))).length ∨
      2147483648 ≤ ((threeMachines.filter (isEtcdMachineOf sampleCluster.Name)).filter
        (fun m => IsOwnedByObject m (sampleEtcd 3))).length) ∧
    (updateStatus (sampleWorld threeDeleting (fun _ => healthyResponse))
        deletingEtcd sampleCluster).ec.Status.ReadyReplicas =
      (updateStatus (sampleWorld threeMachines (fun _ => healthyResponse)) (sampleEtcd 3)
        sampleCluster).ec.Status.ReadyReplicas) :=
  ⟨by decide,
    updateStatus_count_recomputed (sampleWorld threeMachines (fun _ => healthyResponse))
      (sampleWorld threeDeleting (fun _ => healthyResponse))
      (sampleEtcd 3) deletingEtcd sampleCluster threeMachines 3 3 (fun _ => some ⟨9⟩)
      (by decide) rfl rfl rfl rfl rfl rfl rfl⟩

/-! ## The claims about the gate, the filters, the parser and the client -/

/-- C13, as stated, fails: `And()` with no arguments and `Not(p)` for a base filter `p` are
true on a nil machine, and `EtcdClusterMachines(n)` for a name that is not a valid label
value panics when it builds its selector, so that it gives no value on any machine. -/
theorem combinators_true_on_nil :
    And [] none = true ∧ Not HasControllerRef none = true ∧
    Not (And [ActiveMachines, IsReady]) none = true ∧
    IsValidLabelValue "c1-" = false ∧
    (EtcdClusterMachines "c1-").toOption.isSome = false ∧
    (EtcdPlaneSelectorForCluster "c1-").toOption = none := by
  decide

/-- C13, amended: every base filter of the library is false on a nil machine, also
`EtcdClusterMachines(n)` for a cluster name that is a valid label value; `Or` of filters that
are all false on nil is false on nil, and so is `And` of any list with at least one filter
that is false on nil; `And()` with no arguments is true on nil, and `Not(p)` is true on nil
for every `p` that is false on nil. -/
theorem filters_on_nil (ds : List (Option String)) (o : EtcdCluster) (t r : Option Time)
    (k n : String) (p : Func) (ps qs : List Func)
    (hname : IsValidLabelValue n = true) (hp : p none = false) (hmem : p ∈ ps)
    (hqs : ∀ q ∈ qs, q none = false) :
    HasControllerRef none = false ∧ InFailureDomains ds none = false ∧
    OwnedMachines o none = false ∧ ActiveMachines none = false ∧
    HasDeletionTimestamp none = false ∧ HasUnhealthyCondition none = false ∧
    IsReady none = false ∧ ShouldRolloutAfter t r none = false ∧
    HasAnnotationKey k none = false ∧
    (∃ f, EtcdClusterMachines n = Except.ok f ∧ f none = false) ∧
    Or qs none = false ∧ And ps none = false ∧ And [] none = true ∧ Not p none = true := by
  have hOr : ∀ l : List Func, (∀ q ∈ l, q none = false) → Or l none = false := by
    intro l
    induction l with
    | nil => intro _; rfl
    | cons q rest ih =>
      intro h
      have hq := h q (List.mem_cons_self _ _)
      simp only [Or, hq]
      exact ih (fun x hx => h x (List.mem_cons_of_mem _ hx))
  have hAnd : ∀ l : List Func, p ∈ l → And l none = false := by
    intro l
    induction l with
    | nil => intro h; simp at h
    | cons q rest ih =>
      intro h
      cases hq : q none with
      | false => simp [And, hq]
      | true =>
        rcases List.mem_cons.mp h with hEq | hrest
        · rw [← hEq, hp] at hq
          exact Bool.noConfusion hq
        · simp only [And, hq]
          exact ih hrest
  have hfn : ∃ f, EtcdClusterMachines n = Except.ok f ∧ f none = false := by
    obtain ⟨f, hf, _⟩ := etcdClusterMachines_ok n hname
    refine ⟨f, hf, ?_⟩
    unfold EtcdClusterMachines at hf
    simp only [etcdPlaneSelector_ok n hname] at hf
    injection hf with hf
    rw [← hf]
  refine ⟨rfl, rfl, rfl, rfl, rfl, rfl, rfl, rfl, rfl, hfn, hOr qs hqs, hAnd ps hmem, rfl, ?_⟩
  simp [Not, hp]

/-- Witness for C13, amended: the filters of the sample cluster, with an `And` whose first
and last elements are true on nil and whose middle element is false on nil. -/
theorem filters_on_nil_witness :
    (Not ActiveMachines none = true ∧ Not IsReady none = true ∧
      And [Not ActiveMachines, ActiveMachines, Not IsReady] none = false) ∧
    (HasControllerRef none = false ∧ InFailureDomains [none, some "zone-a"] none = false ∧
    OwnedMachines (sampleEtcd 3) none = false ∧ ActiveMachines none = false ∧
    HasDeletionTimestamp none = false ∧ HasUnhealthyCondition none = false ∧
    IsReady none = false ∧ ShouldRolloutAfter (some ⟨9⟩) (some ⟨5⟩) none = false ∧
    HasAnnotationKey "key" none = false ∧
    (∃ f, EtcdClusterMachines "c1" = Except.ok f ∧ f none = false) ∧
    Or [IsReady, HasControllerRef] none = false ∧
    And [Not ActiveMachines, ActiveMachines, Not IsReady] none = false ∧
    And [] none = true ∧ Not ActiveMachines none = true) :=
  ⟨by decide,
    filters_on_nil [none, some "zone-a"] (sampleEtcd 3) (some ⟨9⟩) (some ⟨5⟩) "key" "c1"
      ActiveMachines [Not ActiveMachines, ActiveMachines, Not IsReady]
      [IsReady, HasControllerRef] (by decide) rfl (by simp) (by
        intro q hq
        simp only [List.mem_cons, List.mem_singleton, List.not_mem_nil, or_false] at hq
        rcases hq with rfl | rfl <;> rfl)⟩

/-- C14: the combinators are their boolean reference definitions: `And(ps)` holds on a
machine iff every element of `ps` does, `Or(ps)` iff some element does, and `Not(p)` is the
negation of `p`; `And()` is constantly true and `Or()` constantly false. The machine may be
nil. -/
theorem combinators_eq_reference (ps : List Func) (p : Func) (m : Option Machine) :
    (And ps m = true ↔ ∀ q ∈ ps, q m = true) ∧
    (Or ps m = true ↔ ∃ q ∈ ps, q m = true) ∧
    And ps m = ps.all (fun q => q m) ∧ Or ps m = ps.any (fun q => q m) ∧
    Not p m = !p m ∧ And [] m = true ∧ Or [] m = false := by
  have hAnd : ∀ qs : List Func, And qs m = qs.all (fun q => q m) := by
    intro qs
    induction qs with
    | nil => rfl
    | cons q rest ih =>
      cases hq : q m <;> simp [And, hq, ih]
  have hOr : ∀ qs : List Func, Or qs m = qs.any (fun q => q m) := by
    intro qs
    induction qs with
    | nil => rfl
    | cons q rest ih =>
      cases hq : q m <;> simp [Or, hq, ih]
  refine ⟨?_, ?_, hAnd ps, hOr ps, rfl, rfl, rfl⟩
  · rw [hAnd, List.all_eq_true]
  · rw [hOr, List.any_eq_true]

/-- C15: on a machine that is not nil, `InFailureDomains(ds)` holds iff some element of `ds`
equals the failure domain of the machine, a nil element being equal to an unset failure
domain only and a string to a set failure domain with the same string only. So
`InFailureDomains(nil)` matches exactly the machines without failure domain, and
`InFailureDomains()` matches nothing. -/
theorem inFailureDomains_iff (ds : List (Option String)) (m : Machine) :
    (InFailureDomains ds (some m) = true ↔ ∃ d ∈ ds, d = m.Spec.FailureDomain) ∧
    (InFailureDomains [none] (some m) = true ↔ m.Spec.FailureDomain = none) ∧
    InFailureDomains [] (some m) = false := by
  have h : ∀ l : List (Option String),
      inFailureDomainsLoop l m = true ↔ m.Spec.FailureDomain ∈ l := by
    intro l
    induction l with
    | nil => simp [inFailureDomainsLoop]
    | cons fd rest ih =>
      cases fd with
      | none =>
        cases hm : m.Spec.FailureDomain with
        | none => simp [inFailureDomainsLoop, hm]
        | some md =>
          rw [hm] at ih
          simp [inFailureDomainsLoop, hm, ih]
      | some d =>
        cases hm : m.Spec.FailureDomain with
        | none =>
          rw [hm] at ih
          simp [inFailureDomainsLoop, hm, ih]
        | some md =>
          rw [hm] at ih
          by_cases hd : d = md
          · simp [inFailureDomainsLoop, hm, hd]
          · have hd2 : ¬ md = d := fun h => hd h.symm
            simp [inFailureDomainsLoop, hm, hd, hd2, ih]
  have h2 : ∀ l : List (Option String),
      m.Spec.FailureDomain ∈ l ↔ ∃ d ∈ l, d = m.Spec.FailureDomain := by
    intro l
    constructor
    · intro hmem
      exact ⟨_, hmem, rfl⟩
    · rintro ⟨d, hd, hEq⟩
      rw [← hEq]
      exact hd
  refine ⟨(h ds).trans (h2 ds), ?_, rfl⟩
  have h1 := h [none]
  simp only [InFailureDomains]
  rw [h1]
  simp only [List.mem_singleton]

/-- C16: on a machine that is not nil, `ShouldRolloutAfter(t, r)` holds iff both times are
set and the creation time is before `r` and `r` is before `t`, both strictly: with the
creation time equal to `r`, or `r` equal to `t`, or `r` or `t` nil, the filter is false. -/
theorem shouldRolloutAfter_iff (t r : Option Time) (m : Machine) :
    (ShouldRolloutAfter t r (some m) = true ↔
      ∃ rt tt, r = some rt ∧ t = some tt ∧
        m.CreationTimestamp.instant < rt.instant ∧ rt.instant < tt.instant) ∧
    ShouldRolloutAfter t (some m.CreationTimestamp) (some m) = false ∧
    ShouldRolloutAfter r r (some m) = false ∧
    ShouldRolloutAfter t none (some m) = false ∧
    ShouldRolloutAfter none r (some m) = false := by
  refine ⟨?_, ?_, ?_, ?_, ?_⟩
  · cases r with
    | none => simp [ShouldRolloutAfter, Time.Before]
    | some rt =>
      cases t with
      | none => simp [ShouldRolloutAfter, Time.Before]
      | some tt => simp [ShouldRolloutAfter, Time.Before]
  · simp [ShouldRolloutAfter, Time.Before]
  · cases r <;> simp [ShouldRolloutAfter, Time.Before]
  · simp [ShouldRolloutAfter, Time.Before]
  · cases r <;> simp [ShouldRolloutAfter, Time.Before]

theorem labelNames_ne : MachineEtcdClusterLabelName ≠ ClusterLabelName := by decide

/-- C17: for a cluster name `n` that is a valid label value the selector is built, it is the
pair of requirements "cluster-identity label equals `n`" and "role-marker label exists", its
string form is `<cluster-identity key>=n,<role-marker key>`, and `EtcdClusterMachines(n)`
holds on a machine that is not nil iff its labels map the cluster-identity key to `n` and
hold the role-marker key. Labels made of exactly these two match whatever the value of the
marker; labels without one of the two do not, and with another cluster name they match iff
that name is `n`. -/
theorem etcdClusterMachines_iff (n : String) (hname : IsValidLabelValue n = true) :
    EtcdPlaneSelectorForCluster n =
      Except.ok
        [{ key := ClusterLabelName, operator := Operator.Equals, strValues := [n] },
         { key := MachineEtcdClusterLabelName, operator := Operator.Exists, strValues := [] }] ∧
    (∃ sel, EtcdPlaneSelectorForCluster n = Except.ok sel ∧
      Selector.String sel =
        ClusterLabelName ++ "=" ++ n ++ "," ++ MachineEtcdClusterLabelName) ∧
    ∃ f, EtcdClusterMachines n = Except.ok f ∧
      (∀ m : Machine, f (some m) = true ↔
        m.Labels.lookup ClusterLabelName = some n ∧
          (m.Labels.lookup MachineEtcdClusterLabelName).isSome = true) ∧
      (∀ (name v : String),
        f (some { Name := name,
                  Labels := [(ClusterLabelName, n), (MachineEtcdClusterLabelName, v)] }) =
          true) ∧
      (∀ name : String, f (some { Name := name, Labels := [(ClusterLabelName, n)] }) = false) ∧
      (∀ (name v : String),
        f (some { Name := name, Labels := [(MachineEtcdClusterLabelName, v)] }) = false) ∧
      (∀ (name n2 v : String),
        f (some { Name := name,
                  Labels := [(ClusterLabelName, n2), (MachineEtcdClusterLabelName, v)] }) =
          decide (n2 = n)) := by
  obtain ⟨f, hf, hfm⟩ := etcdClusterMachines_ok n hname
  have hne := labelNames_ne
  have hne2 : (MachineEtcdClusterLabelName == ClusterLabelName) = false := by decide
  have hne3 : (ClusterLabelName == MachineEtcdClusterLabelName) = false := by decide
  refine ⟨etcdPlaneSelector_ok n hname,
    ⟨_, etcdPlaneSelector_ok n hname, by rw [selector_string_eq]; rfl⟩,
    f, hf, ?_, ?_, ?_, ?_, ?_⟩
  · intro m
    rw [hfm m]
    unfold isEtcdMachineOf
    cases h1 : List.lookup ClusterLabelName m.Labels <;>
      cases h2 : List.lookup MachineEtcdClusterLabelName m.Labels <;> simp
  · intro name v
    rw [hfm]
    simp [isEtcdMachineOf, List.lookup, hne2]
  · intro name
    rw [hfm]
    simp [isEtcdMachineOf, List.lookup, hne2]
  · intro name v
    rw [hfm]
    simp [isEtcdMachineOf, List.lookup, hne3]
  · intro name n2 v
    rw [hfm]
    simp [isEtcdMachineOf, List.lookup, hne2, beq_eq_decide]

/-- Witness for C17: the selector of the sample cluster and the sample machines. -/
theorem etcdClusterMachines_iff_witness :
    ((EtcdPlaneSelectorForCluster "c1").toOption.map Selector.String =
      some "cluster.x-k8s.io/cluster-name=c1,cluster.x-k8s.io/etcd-cluster") ∧
    (EtcdPlaneSelectorForCluster "c1" =
      Except.ok
        [{ key := ClusterLabelName, operator := Operator.Equals, strValues := ["c1"] },
         { key := MachineEtcdClusterLabelName, operator := Operator.Exists, strValues := [] }] ∧
    (∃ sel, EtcdPlaneSelectorForCluster "c1" = Except.ok sel ∧
      Selector.String sel =
        ClusterLabelName ++ "=" ++ "c1" ++ "," ++ MachineEtcdClusterLabelName) ∧
    ∃ f, EtcdClusterMachines "c1" = Except.ok f ∧
      (∀ m : Machine, f (some m) = true ↔
        m.Labels.lookup ClusterLabelName = some "c1" ∧
          (m.Labels.lookup MachineEtcdClusterLabelName).isSome = true) ∧
      (∀ (name v : String),
        f (some { Name := name,
                  Labels := [(ClusterLabelName, "c1"), (MachineEtcdClusterLabelName, v)] }) =
          true) ∧
      (∀ name : String,
        f (some { Name := name, Labels := [(ClusterLabelName, "c1")] }) = false) ∧
      (∀ (name v : String),
        f (some { Name := name, Labels := [(MachineEtcdClusterLabelName, v)] }) = false) ∧
      (∀ (name n2 v : String),
        f (some { Name := name,
                  Labels := [(ClusterLabelName, n2), (MachineEtcdClusterLabelName, v)] }) =
          decide (n2 = "c1"))) :=
  ⟨by decide, etcdClusterMachines_iff "c1" (by decide)⟩

/-! ## The decoder and the cached client -/

theorem storeMembers_error (members : List (String × JSONKind)) (obj : EtcdHealthCheckResponse)
    (saved : Option GoError)
    (hs : saved = none ∨ saved = some jsonUnmarshalTypeError) :
    (storeMembers members obj saved).2 = none ∨
      (storeMembers members obj saved).2 = some jsonUnmarshalTypeError := by
  induction members generalizing obj saved with
  | nil => simpa [storeMembers] using hs
  | cons kv rest ih =>
    obtain ⟨key, kind⟩ := kv
    by_cases hk : matchesHealthField key = true
    · cases kind with
      | string s => simpa [storeMembers, hk] using ih _ _ hs
      | null => simpa [storeMembers, hk] using ih _ _ hs
      | bool =>
        rcases hs with hs | hs <;> subst hs <;>
          simpa [storeMembers, hk] using ih obj (some jsonUnmarshalTypeError) (Or.inr rfl)
      | number =>
        rcases hs with hs | hs <;> subst hs <;>
          simpa [storeMembers, hk] using ih obj (some jsonUnmarshalTypeError) (Or.inr rfl)
      | array =>
        rcases hs with hs | hs <;> subst hs <;>
          simpa [storeMembers, hk] using ih obj (some jsonUnmarshalTypeError) (Or.inr rfl)
      | object =>
        rcases hs with hs | hs <;> subst hs <;>
          simpa [storeMembers, hk] using ih obj (some jsonUnmarshalTypeError) (Or.inr rfl)
    · simpa [storeMembers, hk] using ih _ _ hs

theorem unmarshal_error (data : String) (obj : EtcdHealthCheckResponse) :
    (json.Unmarshal data obj).2 = none ∨
      (json.Unmarshal data obj).2 = some jsonSyntaxError ∨
      (json.Unmarshal data obj).2 = some jsonUnmarshalTypeError := by
  unfold json.Unmarshal
  simp only
  split
  · split
    · right; left; rfl
    · split
      · rcases storeMembers_error _ obj none (Or.inl rfl) with h | h
        · left; exact h
        · right; right; exact h
      · right; left; rfl
  · split
    · right; left; rfl
    · split
      · split
        · left; rfl
        · right; right; rfl
      · right; left; rfl

/-- C18: `parseEtcdHealthCheckOutput` returns nil iff the body decodes into the health
response and the decoded health string is exactly "true". A body that decodes with another
health string `v`, the empty string of an absent field included, gives the error
'/health returned "v"'; a body that does not decode gives the error of the decoder, a syntax
error or a type error, and neither of them is an error of the first kind. The bodies
`{"health":"false"}` and `not-json` give the one and the other. -/
theorem parseEtcdHealthCheckOutput_spec (data : String) :
    (parseEtcdHealthCheckOutput data = none ↔
      (json.Unmarshal data {}).2 = none ∧ (json.Unmarshal data {}).1.Health = "true") ∧
    (parseEtcdHealthCheckOutput data = none ∨
      ((json.Unmarshal data {}).2 = none ∧ (json.Unmarshal data {}).1.Health ≠ "true" ∧
        parseEtcdHealthCheckOutput data =
          some (healthReturnedError (json.Unmarshal data {}).1.Health)) ∨
      ((json.Unmarshal data {}).2 = some jsonSyntaxError ∧
        parseEtcdHealthCheckOutput data = some jsonSyntaxError) ∨
      ((json.Unmarshal data {}).2 = some jsonUnmarshalTypeError ∧
        parseEtcdHealthCheckOutput data = some jsonUnmarshalTypeError)) ∧
    (∀ v : String, healthReturnedError v ≠ jsonSyntaxError ∧
      healthReturnedError v ≠ jsonUnmarshalTypeError) ∧
    parseEtcdHealthCheckOutput "\x7b\"health\":\"true\"\x7d" = none ∧
    parseEtcdHealthCheckOutput "\x7b\"health\":\"false\"\x7d" =
      some (healthReturnedError "false") ∧
    parseEtcdHealthCheckOutput "\x7b\x7d" = some (healthReturnedError "") ∧
    parseEtcdHealthCheckOutput "not-json" = some jsonSyntaxError ∧
    parseEtcdHealthCheckOutput "\x7b\"health\":true\x7d" = some jsonUnmarshalTypeError := by
  refine ⟨?_, ?_, ?_, by decide, by decide, by decide, by decide, by decide⟩
  · unfold parseEtcdHealthCheckOutput
    cases h2 : (json.Unmarshal data {}).2 with
    | some e => simp [h2]
    | none =>
      by_cases hh : (json.Unmarshal data {}).1.Health = "true"
      · simp [h2, hh]
      · simp [h2, hh]
  · unfold parseEtcdHealthCheckOutput
    rcases unmarshal_error data {} with h | h | h
    · by_cases hh : (json.Unmarshal data {}).1.Health = "true"
      · left; simp [h, hh]
      · right; left; simp [h, hh]
    · right; right; left; simp [h]
    · right; right; right; simp [h]
  · intro v
    constructor <;> intro h <;> simp [healthReturnedError, jsonSyntaxError,
      jsonUnmarshalTypeError] at h

/-- C19: a call of `setEtcdHttpClientIfUnset` with a cached client returns nil, fetches no
certificate and leaves the reconciler as it is. Without a cached client, a failure of the CA
fetch or of the client-certificate fetch is returned as an error and the cache stays empty;
when both fetches succeed the client built from them is cached, nil is returned, and a second
call returns nil, fetches nothing and changes nothing. -/
theorem setEtcdHttpClientIfUnset_spec (w : World) (r : EtcdadmClusterReconciler)
    (cluster : Cluster) :
    (∀ c, r.etcdHealthCheckConfig.etcdHttpClient = some c →
      setEtcdHttpClientIfUnset w r cluster =
        { r := r, outcome := Outcome.returned none, trace := [] }) ∧
    (∀ e, r.etcdHealthCheckConfig.etcdHttpClient = none →
      w.getCACert cluster = Except.error e →
      setEtcdHttpClientIfUnset w r cluster =
        { r := r, outcome := Outcome.returned (some e), trace := [Event.getCACert] }) ∧
    (∀ caCert e, r.etcdHealthCheckConfig.etcdHttpClient = none →
      w.getCACert cluster = Except.ok caCert →
      w.getClientCerts cluster = Except.error e →
      setEtcdHttpClientIfUnset w r cluster =
        { r := r,
          outcome := Outcome.returned
            (some (GoError.wrap e "Error getting client cert for healthcheck")),
          trace := [Event.getCACert, Event.getClientCerts] }) ∧
    (∀ caCert clientCert, r.etcdHealthCheckConfig.etcdHttpClient = none →
      w.getCACert cluster = Except.ok caCert →
      w.getClientCerts cluster = Except.ok clientCert →
      (setEtcdHttpClientIfUnset w r cluster).outcome = Outcome.returned none ∧
      (setEtcdHttpClientIfUnset w r cluster).r.etcdHealthCheckConfig.etcdHttpClient =
        some (probeClient caCert clientCert) ∧
      setEtcdHttpClientIfUnset w (setEtcdHttpClientIfUnset w r cluster).r cluster =
        { r := (setEtcdHttpClientIfUnset w r cluster).r, outcome := Outcome.returned none,
          trace := [] }) := by
  refine ⟨?_, ?_, ?_, ?_⟩
  · intro c hc
    simp [setEtcdHttpClientIfUnset, hc]
  · intro e hc hca
    simp [setEtcdHttpClientIfUnset, hc, hca]
  · intro caCert e hc hca hcert
    simp [setEtcdHttpClientIfUnset, hc, hca, hcert, errors.Wrap]
  · intro caCert clientCert hc hca hcert
    simp [setEtcdHttpClientIfUnset, hc, hca, hcert, probeClient]

/-- Witness for C19: a reconciler with a cached client in a world whose certificate store
fails, and a reconciler without one in worlds where the first fetch fails, the second fetch
fails, and both succeed. -/
theorem setEtcdHttpClientIfUnset_spec_witness :
    setEtcdHttpClientIfUnset (certificateWorld true true) cachedReconciler sampleCluster =
      { r := cachedReconciler, outcome := Outcome.returned none, trace := [] } ∧
    setEtcdHttpClientIfUnset (certificateWorld true false) {} sampleCluster =
      { r := {}, outcome := Outcome.returned (some (GoError.base "CA secret not found")),
        trace := [Event.getCACert] } ∧
    setEtcdHttpClientIfUnset (certificateWorld false true) {} sampleCluster =
      { r := {},
        outcome := Outcome.returned
          (some (GoError.wrap (GoError.base "client secret not found")
            "Error getting client cert for healthcheck")),
        trace := [Event.getCACert, Event.getClientCerts] } ∧
    ((setEtcdHttpClientIfUnset (certificateWorld false false) {} sampleCluster).outcome =
        Outcome.returned none ∧
      (setEtcdHttpClientIfUnset (certificateWorld false false) {}
        sampleCluster).r.etcdHealthCheckConfig.etcdHttpClient =
        some (probeClient "ca" { pem := "client" }) ∧
      setEtcdHttpClientIfUnset (certificateWorld false false)
        (setEtcdHttpClientIfUnset (certificateWorld false false) {} sampleCluster).r
        sampleCluster =
        { r := (setEtcdHttpClientIfUnset (certificateWorld false false) {} sampleCluster).r,
          outcome := Outcome.returned none, trace := [] }) :=
  ⟨(setEtcdHttpClientIfUnset_spec (certificateWorld true true) cachedReconciler
      sampleCluster).1 _ rfl,
    (setEtcdHttpClientIfUnset_spec (certificateWorld true false) {} sampleCluster).2.1
      _ rfl rfl,
    (setEtcdHttpClientIfUnset_spec (certificateWorld false true) {} sampleCluster).2.2.1
      _ _ rfl rfl rfl,
    (setEtcdHttpClientIfUnset_spec (certificateWorld false false) {} sampleCluster).2.2.2
      _ _ rfl rfl rfl⟩

/-- C20 (the code departs from the claim): when no URL was derived, by zero desired replicas
and no owned member or by an owned member with a host name only, the endpoint string is empty
and `strings.Split` of the empty string is the list of one empty string: the probe issues one
request, to the URL `/health`, and the pass returns the transport error of that request. -/
theorem updateStatus_probes_empty_endpoint :
    strings.Split "" = [""] ∧
    (probeRequest "").URL = "/health" ∧
    aggregatedEndpoint [] = "" ∧
    aggregatedEndpoint [hostnameOnly] = "" ∧
    (updateStatus (schemeCheckingWorld []) (sampleEtcd 0) sampleCluster).trace =
      [Event.listMachines, Event.getCACert, Event.getClientCerts,
        Event.roundTrip (probeRequest "")] ∧
    (updateStatus (schemeCheckingWorld []) (sampleEtcd 0) sampleCluster).outcome =
      Outcome.returned (some (GoError.wrap (GoError.base "unsupported protocol scheme")
        "error checking etcd member health")) ∧
    (updateStatus (schemeCheckingWorld [hostnameOnly]) (sampleEtcd 1) sampleCluster).trace =
      [Event.listMachines, Event.getCACert, Event.getClientCerts,
        Event.roundTrip (probeRequest "")] ∧
    (updateStatus (schemeCheckingWorld [hostnameOnly]) (sampleEtcd 1) sampleCluster).outcome =
      Outcome.returned (some (GoError.wrap (GoError.base "unsupported protocol scheme")
        "error checking etcd member health")) := by
  decide

end EtcdadmController
